import Mathlib

/-!
Shallow embedding of the easy-pw PipeWire graph manager (Rust) into Lean 4.

Terminology used by the specification: Device = `Node`, Channel = `Port`,
Connection = `Link`.  Machine integers (`u32`) are modelled as `Nat`; the
source never performs arithmetic on ids, only equality comparisons, so no
modular reduction is needed.  Panics are modelled as `Except.error` (a panic
kills the event thread: no resulting state).  Calls into the external
PipeWire server (`core.create_object`, `registry.destroy_global`) are
modelled as emitted request records, since they do not change the local
object graph.
-/

/-- `port.rs`: the closed enumeration of audio channel role tags. -/
inductive AudioChannel
  | MONO | FL | FR | FC | LFE | SL | SR | RL | RR | TFL | TFR
  | Unknown
deriving DecidableEq, Repr

/-- `port.rs`: direction of a port. -/
inductive PortDirection
  | In
  | Out
deriving DecidableEq, Repr

/-- `port.rs` `struct Port` (commented-out optional fields omitted as in the source). -/
structure Port where
  id : Nat
  name : String
  direction : PortDirection
  alias' : String
  group : String
  object_serial : Nat
  object_path : String
  node_id : Nat
  audio_channel : AudioChannel
deriving DecidableEq, Repr

/-- `node.rs` `struct Node` (the `permissions`/`version` pass-through fields kept as `Nat`). -/
structure Node where
  id : Nat
  name : String
  description : Option String
  nick : Option String
  permissions : Nat
  version : Nat
  object_serial : String
  factory_id : Option String
  object_path : Option String
  client_id : Option String
  device_id : Option String
  priority_session : Option String
  priority_driver : Option String
  media_class : Option String
  media_role : Option String
  client_api : Option String
  application_name : Option String
  ports : List Port
deriving DecidableEq, Repr

/-- `link.rs` `struct Link`. -/
structure Link where
  id : Nat
  output_port : Nat
  input_port : Nat
  output_node : Nat
  input_node : Nat
deriving DecidableEq, Repr

/-- `objects.rs` `struct PipeWireObjects`. -/
structure PipeWireObjects where
  nodes : List Node
  links : List Link
  ports_to_be_added : List Port
deriving DecidableEq, Repr

/-- `event.rs` `enum ConnectorEvent`: outcome notifications sent to callers. -/
inductive ConnectorEvent
  | none
  | linkUpdate (a b : Nat)
  | linkFailed (a b : Nat)
  | unlinkUpdate (a b : Nat)
  | unLinkFailed (a b : Nat)
deriving DecidableEq, Repr

/-- A create-connection request issued to the server by `Port::link_port`
(`core.create_object` property set). -/
structure ConnReq where
  output_node : Nat
  output_port : Nat
  input_node : Nat
  input_port : Nat
deriving DecidableEq, Repr

/-- `port.rs` `enum PortError`. -/
inductive PortError
  | linkError (a b reason : String)
deriving DecidableEq, Repr

/-- `node.rs` `enum NodeError`. -/
inductive NodeError
  | portError (e : PortError)
  | incorrectTypeOfChannelDirection (name : String) (dir : PortDirection)
deriving DecidableEq, Repr

/-- `node.rs` `Node::has_port_of_id`. -/
def Node.has_port_of_id (n : Node) (port_id : Nat) : Bool :=
  n.ports.any (fun p => p.id == port_id)

/-- `node.rs` `Node::has_port`. -/
def Node.has_port (n : Node) (port : Port) : Bool :=
  n.has_port_of_id port.id

/-- `node.rs` `Node::add_port`. -/
def Node.add_port (n : Node) (port : Port) : Node :=
  { n with ports := n.ports ++ [port] }

/-- The body of the loop of `objects.rs` `PipeWireObjects::update_nodes`:
`nodes.get_mut(&node_id)` looks a port's node up in a `HashMap` built by
inserting the nodes in vector order, so on duplicate ids the LAST node with
the id wins; the node is mutated in place.  `attachToLast` updates the last
node whose id is the port's `node_id`: if that node already `has_port` the
port, nothing changes (the drained port is discarded), otherwise `add_port`. -/
def attachToLast : List Node → Port → List Node
  | [], _ => []
  | n :: rest, p =>
    if rest.any (fun m => m.id == p.node_id) then
      n :: attachToLast rest p
    else if n.id == p.node_id then
      (if n.has_port p then n else n.add_port p) :: rest
    else
      n :: attachToLast rest p

/-- The `while let Some(port) = self._ports_to_be_added.pop()` drain loop of
`update_nodes`: the pending list is popped from the back (so the drain order
is the reverse of the pending list), a port whose node exists is attached (or
discarded when the node already has a port with its id), and a port with no
node is pushed onto the `ports_not_found` accumulator. -/
def drainPorts : List Port → List Node → List Port → List Node × List Port
  | [], nodes, nf => (nodes, nf)
  | p :: rest, nodes, nf =>
    if nodes.any (fun n => n.id == p.node_id) then
      drainPorts rest (attachToLast nodes p) nf
    else
      drainPorts rest nodes (nf ++ [p])

/-- `objects.rs` `PipeWireObjects::update_nodes`. -/
def PipeWireObjects.update_nodes (o : PipeWireObjects) : PipeWireObjects :=
  if o.nodes.isEmpty || o.ports_to_be_added.isEmpty then o
  else
    let r := drainPorts o.ports_to_be_added.reverse o.nodes []
    { o with nodes := r.1, ports_to_be_added := r.2 }

/-- `objects.rs` `PipeWireObjects::find_node_by_id`. -/
def PipeWireObjects.find_node_by_id (o : PipeWireObjects) (id : Nat) : Option Node :=
  o.nodes.find? (fun node => node.id == id || node.has_port_of_id id)

/-- `objects.rs` `PipeWireObjects::find_two_nodes_by_id_mut` (the loop keeps
overwriting, so the last node with each id wins; `else if` means a node equal
to both ids only fills the first slot). -/
def PipeWireObjects.find_two_nodes_by_id (o : PipeWireObjects)
    (first_id second_id : Nat) : Option Node × Option Node :=
  o.nodes.foldl
    (fun acc node =>
      if node.id == first_id then (some node, acc.2)
      else if node.id == second_id then (acc.1, some node)
      else acc)
    (Option.none, Option.none)

/-- `objects.rs` `PipeWireObjects::find_linked_nodes_by_link_id_mut`. -/
def PipeWireObjects.find_linked_nodes_by_link_id (o : PipeWireObjects)
    (id : Nat) : Option (Nat × Nat) :=
  (o.links.find? (fun link => link.id == id)).map
    (fun link => (link.output_node, link.input_node))

/-- `objects.rs` `PipeWireObjects::remove_node` (removes the first node whose
id matches, if any). -/
def PipeWireObjects.remove_node (o : PipeWireObjects) (id : Nat) : PipeWireObjects :=
  { o with nodes := o.nodes.eraseP (fun n => n.id == id) }

/-- `objects.rs` `PipeWireObjects::remove_link`: fails when no link with the
id exists; otherwise removes the first link with the id from the list,
requests server-side destruction when a registry is supplied (external
effect, not part of the graph state), and sends an `UnlinkUpdate`
notification for the link's `(output_node, input_node)` pair. -/
def PipeWireObjects.remove_link (o : PipeWireObjects) (id : Nat) :
    Except String (PipeWireObjects × ConnectorEvent × (Nat × Nat)) :=
  match o.find_linked_nodes_by_link_id id with
  | Option.none => Except.error ("Failed to find link with id " ++ toString id)
  | Option.some link =>
    Except.ok ({ o with links := o.links.eraseP (fun l => l.id == id) },
      ConnectorEvent.unlinkUpdate link.1 link.2, link)

/-- `manager.rs` `PipeWireManager::remove_object`: if the id matches a link,
remove the link (returning early only if that removal failed); then — in the
same invocation — look the id up among the nodes (`find_node_by_id`, which
also matches a node owning a port with the id) and remove the first node
with the found node's id.  Returns the new graph and the notifications sent. -/
def PipeWireManager.remove_object (o : PipeWireObjects) (obj_id : Nat) :
    PipeWireObjects × List ConnectorEvent :=
  let step1 : Option (PipeWireObjects × List ConnectorEvent) :=
    if (o.find_linked_nodes_by_link_id obj_id).isSome then
      match o.remove_link obj_id with
      | Except.error _ => Option.none
      | Except.ok (o', ev, _) => Option.some (o', [ev])
    else Option.some (o, [])
  match step1 with
  | Option.none => (o, [])
  | Option.some (o', evs) =>
    match o'.find_node_by_id obj_id with
    | Option.some node => (o'.remove_node node.id, evs)
    | Option.none => (o', evs)

/-- `port.rs` `Port::link_port`: direction validation, then a create-link
request to the server (the request record is the observable effect; a
server-side creation failure is only logged and still counts as `Ok`).
Note the source formats BOTH error reasons with `self.name`. -/
def Port.link_port (self target_port : Port) : Except PortError ConnReq :=
  if self.direction != PortDirection.Out then
    Except.error (PortError.linkError self.name target_port.name
      (self.name ++ " is not an output port"))
  else if target_port.direction != PortDirection.In then
    Except.error (PortError.linkError self.name target_port.name
      (self.name ++ " is not an input port"))
  else
    Except.ok { output_node := self.node_id, output_port := self.id,
                input_node := target_port.node_id, input_port := target_port.id }

/-- The exact-match loop of `node.rs` `Node::link_device` (`for port in
self.ports.iter()`): input-direction source ports are skipped; for an output
port the FIRST target port with the same `audio_channel` is looked up
(`find`, with no direction filter); a found pair is linked with `?`, so a
`link_port` error aborts the whole call, keeping the requests issued so far.
Returns (requests issued, error if any, `were_matching_ports_found`). -/
def exactPass (tgtPorts : List Port) : List Port → List ConnReq × Option PortError × Bool
  | [] => ([], Option.none, false)
  | p :: rest =>
    if p.direction == PortDirection.In then exactPass tgtPorts rest
    else
      match tgtPorts.find? (fun q => q.audio_channel == p.audio_channel) with
      | Option.none => exactPass tgtPorts rest
      | Option.some q =>
        match p.link_port q with
        | Except.error e => ([], Option.some e, false)
        | Except.ok r =>
          let res := exactPass tgtPorts rest
          (r :: res.1, res.2.1, true)

/-- The fallback loop of `Node::link_device`: the first output port of the
source is linked (with `?`) to every input-direction port of the target. -/
def fallbackPass (first_port : Port) : List ConnReq → List Port → List ConnReq × Option NodeError
  | reqs, [] => (reqs, Option.none)
  | reqs, q :: rest =>
    if q.direction != PortDirection.In then fallbackPass first_port reqs rest
    else
      match first_port.link_port q with
      | Except.error e => (reqs, Option.some (NodeError.portError e))
      | Except.ok r => fallbackPass first_port (reqs ++ [r]) rest

/-- `node.rs` `Node::link_device`.  Result: the create-link requests issued
to the server, and the error returned (`Option.none` = `Ok(())`). -/
def Node.link_device (self input_device : Node) : List ConnReq × Option NodeError :=
  if (self.ports.any (fun port => port.direction == PortDirection.Out)) = false then
    ([], Option.some (NodeError.incorrectTypeOfChannelDirection self.name PortDirection.Out))
  else if (input_device.ports.any (fun port => port.direction == PortDirection.In)) = false then
    ([], Option.some (NodeError.incorrectTypeOfChannelDirection input_device.name PortDirection.In))
  else
    let ex :=
      if self.ports.length == input_device.ports.length then
        exactPass input_device.ports self.ports
      else ([], Option.none, false)
    match ex.2.1 with
    | Option.some e => (ex.1, Option.some (NodeError.portError e))
    | Option.none =>
      if ex.2.2 then (ex.1, Option.none)
      else
        match self.ports.find? (fun p => p.direction == PortDirection.Out) with
        | Option.none =>
          (ex.1, Option.some (NodeError.incorrectTypeOfChannelDirection
            input_device.name PortDirection.In))
        | Option.some first_port => fallbackPass first_port ex.1 input_device.ports

/-- `event.rs`: the distinct failure strings of `PipeWireEvent::_link_command`,
kept as a tagged type (in the source each is a distinct `format!` string,
all collapsed by `handle` into a `ConnectorEvent::LinkFailed`). -/
inductive LinkCmdError
  | sameEndpoint (id : Nat)
  | endpointNotFound (a b : Nat)
  | deviceLinkFailed (e : NodeError)
deriving DecidableEq, Repr

/-- `event.rs` `PipeWireEvent::_link_command`: rejects `source_id == target_id`
first, then looks both nodes up, then delegates to `Node::link_device`.
`link_device` never mutates the graph (its only effects are server
create-link requests), so the resulting graph is the input graph. -/
def PipeWireEvent.link_command (o : PipeWireObjects) (source_id target_id : Nat) :
    PipeWireObjects × List ConnReq × Option LinkCmdError :=
  if source_id == target_id then
    (o, [], Option.some (LinkCmdError.sameEndpoint source_id))
  else
    match o.find_two_nodes_by_id source_id target_id with
    | (Option.some input_node, Option.some target_node) =>
      let r := input_node.link_device target_node
      (o, r.1, r.2.map LinkCmdError.deviceLinkFailed)
    | _ => (o, [], Option.some (LinkCmdError.endpointNotFound source_id target_id))

/-- `event.rs` `PipeWireEvent::handle` for `LinkCommand`: any `_link_command`
error is downgraded to a `ConnectorEvent::LinkFailed(source, target)`
notification (`Option.none` = `Ok(())`). -/
def PipeWireEvent.handle_link (o : PipeWireObjects) (source_id target_id : Nat) :
    PipeWireObjects × List ConnReq × Option ConnectorEvent :=
  let r := PipeWireEvent.link_command o source_id target_id
  (r.1, r.2.1, r.2.2.map (fun _ => ConnectorEvent.linkFailed source_id target_id))

/-- The removal loop of `event.rs` `PipeWireEvent::_unlink_command`
(`for id in links_id`), threading the graph and the notifications emitted by
`remove_link`; an error aborts with `?`. -/
def removeLinksLoop : List Nat → PipeWireObjects → List ConnectorEvent →
    Except String (PipeWireObjects × List ConnectorEvent)
  | [], o, evs => Except.ok (o, evs)
  | id :: rest, o, evs =>
    match o.remove_link id with
    | Except.error e => Except.error e
    | Except.ok (o', ev, _) => removeLinksLoop rest o' (evs ++ [ev])

/-- `event.rs` `PipeWireEvent::_unlink_command`: collect the ids of all links
whose `(output_node, input_node)` pair matches; when none match, emit a
successful `UnlinkUpdate` notification anyway (the "HOTFIX" idempotent-unlink
branch) and leave the graph untouched; otherwise remove each matched link. -/
def PipeWireEvent.unlink_command (o : PipeWireObjects) (source_id target_id : Nat) :
    Except String (PipeWireObjects × List ConnectorEvent) :=
  let links_id := (o.links.filter
    (fun link => link.output_node == source_id && link.input_node == target_id)).map Link.id
  if links_id.isEmpty then
    Except.ok (o, [ConnectorEvent.unlinkUpdate source_id target_id])
  else
    removeLinksLoop links_id o []

/-! ## Property decoding (`utils.rs`, `Port::new`, `Node::new`, `Link::new`)

A property dictionary is a key/value list; `val` models the source's panic on
a missing required key as a fatal `Except.error` (the panic unwinds the event
thread — there is no per-object recovery in the source). -/

/-- A decoded property dictionary (`DictRef`). -/
def Dict : Type := List (String × String)

/-- Dictionary lookup (`dict.get(key)`). -/
def Dict.get' (dict : Dict) (key : String) : Option String :=
  (List.find? (fun kv => kv.1 == key) dict).map (fun kv => kv.2)

/-- `utils.rs` `UNKNOWN_STR`. -/
def UNKNOWN_STR : String := "unknown"

/-- `utils.rs` `val`: panics (fatal error) when the key is absent. -/
def val (dict : Dict) (key : String) : Except String String :=
  match dict.get' key with
  | Option.none => Except.error ("Expected key " ++ key ++ " does not exist.")
  | Option.some v => Except.ok v

/-- `utils.rs` `val_or`. -/
def val_or (dict : Dict) (key : String) (default : String) : String :=
  (dict.get' key).getD default

/-- `utils.rs` `val_opt`. -/
def val_opt (dict : Dict) (key : String) : Option String :=
  dict.get' key

/-- `port.rs` `AudioChannel::from_str` (total: unknown tags fall back to
`Unknown` with a warning log). -/
def AudioChannel.from_str (s : String) : AudioChannel :=
  if s == "MONO" then AudioChannel.MONO
  else if s == "FL" then AudioChannel.FL
  else if s == "FR" then AudioChannel.FR
  else if s == "FC" then AudioChannel.FC
  else if s == "LFE" then AudioChannel.LFE
  else if s == "SL" then AudioChannel.SL
  else if s == "SR" then AudioChannel.SR
  else if s == "RL" then AudioChannel.RL
  else if s == "RR" then AudioChannel.RR
  else if s == "TFL" then AudioChannel.TFL
  else if s == "TFR" then AudioChannel.TFR
  else if s == UNKNOWN_STR then AudioChannel.Unknown
  else AudioChannel.Unknown

/-- `port.rs` `PortDirection::from_str`: panics (fatal error) on anything but
`"in"`/`"out"`. -/
def PortDirection.from_str (s : String) : Except String PortDirection :=
  if s == "in" then Except.ok PortDirection.In
  else if s == "out" then Except.ok PortDirection.Out
  else Except.error ("A port of direction " ++ s ++
    " has been found. That was totally not supposed to happen")

/-- `u32::MAX`, the fallback of `.parse().unwrap_or(u32::MAX)`. -/
def U32_MAX : Nat := 4294967295

/-- `port.rs` `Port::new` (`port_dict.id` is the global object id). -/
def Port.new (id : Nat) (props : Dict) : Except String Port := do
  let audio_channel := val_or props "audio.channel" UNKNOWN_STR
  let name ← val props "port.name"
  let dir_str ← val props "port.direction"
  let direction ← PortDirection.from_str dir_str
  let alias' ← val props "port.alias"
  let group ← val props "port.group"
  let serial_str ← val props "object.serial"
  let object_path ← val props "object.path"
  let node_id_str ← val props "node.id"
  Except.ok
    { id := id, name := name, direction := direction, alias' := alias',
      group := group, object_serial := serial_str.toNat?.getD U32_MAX,
      object_path := object_path, node_id := node_id_str.toNat?.getD U32_MAX,
      audio_channel := AudioChannel.from_str audio_channel }

/-- `node.rs` `Node::new` (`global.id`, `global.permissions`, `global.version`
come from the global object; a fresh node always has `ports := []`). -/
def Node.new (id permissions version : Nat) (props : Dict) : Except String Node := do
  let name ← val props "node.name"
  let object_serial ← val props "object.serial"
  Except.ok
    { id := id, name := name,
      description := val_opt props "node.description",
      nick := val_opt props "node.nick",
      permissions := permissions, version := version,
      object_serial := object_serial,
      factory_id := val_opt props "factory.id",
      object_path := val_opt props "object.path",
      client_id := val_opt props "client.id",
      device_id := val_opt props "device.id",
      priority_session := val_opt props "priority.session",
      priority_driver := val_opt props "priority.driver",
      media_class := val_opt props "media.class",
      media_role := val_opt props "media.role",
      client_api := val_opt props "client.api",
      application_name := val_opt props "application.name",
      ports := [] }

/-- Parse of a required numeric property in `link.rs` `Link::new`
(`val(...).parse().unwrap()` — an unparsable value panics). -/
def parseU32 (s : String) : Except String Nat :=
  match s.toNat? with
  | Option.none => Except.error ("invalid digit found in string: " ++ s)
  | Option.some n => Except.ok n

/-- `link.rs` `Link::new`. -/
def Link.new (id : Nat) (props : Dict) : Except String Link := do
  let output_port ← parseU32 (← val props "link.output.port")
  let input_port ← parseU32 (← val props "link.input.port")
  let output_node ← parseU32 (← val props "link.output.node")
  let input_node ← parseU32 (← val props "link.input.node")
  Except.ok { id := id, output_port := output_port, input_port := input_port,
              output_node := output_node, input_node := input_node }

/-! ## Registry event dispatch (`manager.rs` `_pw_event_handler`) -/

/-- A decoded "object appeared" notification, by kind. -/
inductive PwGlobalEvent
  | nodeAppeared (n : Node)
  | portAppeared (p : Port)
  | linkAppeared (l : Link)
  | otherAppeared
deriving DecidableEq, Repr

/-- `manager.rs` `PipeWireManager::_pw_event_handler` after decoding: a node
is pushed onto `nodes`, a port onto `_ports_to_be_added`, a link onto `links`
(also notifying `LinkUpdate(output_node, input_node)`), any other kind only
notifies `ConnectorEvent::None`; `update_nodes` (reconciliation) runs after
every event. -/
def pwEventHandler (o : PipeWireObjects) : PwGlobalEvent →
    PipeWireObjects × List ConnectorEvent
  | PwGlobalEvent.nodeAppeared n =>
    (PipeWireObjects.update_nodes { o with nodes := o.nodes ++ [n] }, [])
  | PwGlobalEvent.portAppeared p =>
    (PipeWireObjects.update_nodes { o with ports_to_be_added := o.ports_to_be_added ++ [p] }, [])
  | PwGlobalEvent.linkAppeared l =>
    (PipeWireObjects.update_nodes { o with links := o.links ++ [l] },
      [ConnectorEvent.linkUpdate l.output_node l.input_node])
  | PwGlobalEvent.otherAppeared =>
    (PipeWireObjects.update_nodes o, [ConnectorEvent.none])

/-- A raw "object appeared" notification as delivered by the registry:
numeric id, kind tag, and the undecoded property dictionary. -/
inductive RawGlobal
  | node (id permissions version : Nat) (props : Dict)
  | port (id : Nat) (props : Dict)
  | link (id : Nat) (props : Dict)
  | other

/-- `_pw_event_handler` including decoding: `Node::new` / `Port::new` /
`Link::new` run inside the handler, so a decode panic (`Except.error`) aborts
the whole invocation — no state results and no further object is processed. -/
def pwRawEventHandler (o : PipeWireObjects) : RawGlobal →
    Except String (PipeWireObjects × List ConnectorEvent)
  | RawGlobal.node id permissions version props =>
    (Node.new id permissions version props).map
      (fun n => pwEventHandler o (PwGlobalEvent.nodeAppeared n))
  | RawGlobal.port id props =>
    (Port.new id props).map (fun p => pwEventHandler o (PwGlobalEvent.portAppeared p))
  | RawGlobal.link id props =>
    (Link.new id props).map (fun l => pwEventHandler o (PwGlobalEvent.linkAppeared l))
  | RawGlobal.other => Except.ok (pwEventHandler o PwGlobalEvent.otherAppeared)

/-- The empty object graph (`PipeWireObjects::default()`). -/
def PipeWireObjects.empty : PipeWireObjects :=
  { nodes := [], links := [], ports_to_be_added := [] }

/-- Feeding a sequence of decoded registry events to the handler, starting
from the empty graph (each event is followed by its reconciliation pass, as
in `_pw_event_handler`). -/
def processEvents (es : List PwGlobalEvent) : PipeWireObjects :=
  es.foldl (fun o e => (pwEventHandler o e).1) PipeWireObjects.empty

/-! ## Lemmas about the reconciliation pass (`update_nodes`) -/

theorem has_port_of_id_iff (n : Node) (i : Nat) :
    n.has_port_of_id i = true ↔ ∃ r ∈ n.ports, r.id = i := by
  simp [Node.has_port_of_id]

theorem any_id_eq_true_iff (nodes : List Node) (x : Nat) :
    (nodes.any fun n => n.id == x) = true ↔ ∃ n ∈ nodes, n.id = x := by
  simp

theorem any_id_congr {nodes₁ nodes₂ : List Node} (x : Nat)
    (h : nodes₁.map Node.id = nodes₂.map Node.id) :
    (nodes₁.any fun n => n.id == x) = (nodes₂.any fun n => n.id == x) := by
  rw [Bool.eq_iff_iff, any_id_eq_true_iff, any_id_eq_true_iff]
  constructor
  · rintro ⟨n, hn, rfl⟩
    have hx : n.id ∈ nodes₂.map Node.id := h ▸ List.mem_map_of_mem Node.id hn
    obtain ⟨m, hm, hmi⟩ := List.mem_map.mp hx
    exact ⟨m, hm, hmi⟩
  · rintro ⟨n, hn, rfl⟩
    have hx : n.id ∈ nodes₁.map Node.id := h.symm ▸ List.mem_map_of_mem Node.id hn
    obtain ⟨m, hm, hmi⟩ := List.mem_map.mp hx
    exact ⟨m, hm, hmi⟩

theorem attachToLast_map_id (nodes : List Node) (p : Port) :
    (attachToLast nodes p).map Node.id = nodes.map Node.id := by
  induction nodes with
  | nil => rfl
  | cons n rest ih =>
    simp only [attachToLast]
    split
    · simp [ih]
    · split
      · split <;> simp [Node.add_port]
      · simp [ih]

theorem attachToLast_of_not_found {nodes : List Node} {p : Port}
    (h : (nodes.any fun n => n.id == p.node_id) = false) :
    attachToLast nodes p = nodes := by
  induction nodes with
  | nil => rfl
  | cons n rest ih =>
    simp only [List.any_cons, Bool.or_eq_false_iff] at h
    simp [attachToLast, h.1, h.2, ih h.2]

theorem attachToLast_skip {nodes : List Node} {p : Port} {n : Node}
    (hnodup : (nodes.map Node.id).Nodup) (hn : n ∈ nodes)
    (hid : n.id = p.node_id) (hhas : n.has_port p = true) :
    attachToLast nodes p = nodes := by
  induction nodes with
  | nil => cases hn
  | cons n' rest ih =>
    rw [List.map_cons, List.nodup_cons] at hnodup
    rcases List.mem_cons.mp hn with rfl | hmem
    · have hrest : (rest.any fun m => m.id == p.node_id) = false := by
        rw [List.any_eq_false]
        intro m hm
        simp only [beq_iff_eq]
        intro hq
        apply hnodup.1
        rw [hid, ← hq]
        exact List.mem_map_of_mem Node.id hm
      simp [attachToLast, hrest, hid, hhas]
    · have hany : (rest.any fun m => m.id == p.node_id) = true := by
        rw [List.any_eq_true]
        exact ⟨n, hmem, by rw [beq_iff_eq]; exact hid⟩
      simp [attachToLast, hany, ih hnodup.2 hmem]

theorem attachToLast_mem_or {nodes : List Node} {p : Port} {m : Node}
    (hm : m ∈ attachToLast nodes p) :
    m ∈ nodes ∨ ∃ n ∈ nodes, n.id = p.node_id ∧ m = n.add_port p := by
  induction nodes with
  | nil => cases hm
  | cons n' rest ih =>
    simp only [attachToLast] at hm
    split at hm
    · rcases List.mem_cons.mp hm with rfl | h2
      · exact Or.inl (List.mem_cons_self _ _)
      · rcases ih h2 with h3 | ⟨n, hn, hni, hmeq⟩
        · exact Or.inl (List.mem_cons_of_mem _ h3)
        · exact Or.inr ⟨n, List.mem_cons_of_mem _ hn, hni, hmeq⟩
    · split at hm
      case isTrue hc =>
        rcases List.mem_cons.mp hm with rfl | h2
        · split
          case isTrue hh => exact Or.inl (List.mem_cons_self _ _)
          case isFalse hh =>
            exact Or.inr ⟨n', List.mem_cons_self _ _, beq_iff_eq.mp hc, rfl⟩
        · exact Or.inl (List.mem_cons_of_mem _ h2)
      case isFalse hc =>
        rcases List.mem_cons.mp hm with rfl | h2
        · exact Or.inl (List.mem_cons_self _ _)
        · rcases ih h2 with h3 | ⟨n, hn, hni, hmeq⟩
          · exact Or.inl (List.mem_cons_of_mem _ h3)
          · exact Or.inr ⟨n, List.mem_cons_of_mem _ hn, hni, hmeq⟩

theorem attachToLast_mono {nodes : List Node} {p : Port} {n : Node} (hn : n ∈ nodes) :
    ∃ m ∈ attachToLast nodes p, m.id = n.id ∧ ∀ r ∈ n.ports, r ∈ m.ports := by
  induction nodes with
  | nil => cases hn
  | cons n' rest ih =>
    simp only [attachToLast]
    split
    · rcases List.mem_cons.mp hn with rfl | h2
      · exact ⟨n, List.mem_cons_self _ _, rfl, fun r hr => hr⟩
      · obtain ⟨m, hm, hmi, hsub⟩ := ih h2
        exact ⟨m, List.mem_cons_of_mem _ hm, hmi, hsub⟩
    · split
      · rcases List.mem_cons.mp hn with rfl | h2
        · split
          case isTrue hh => exact ⟨n, List.mem_cons_self _ _, rfl, fun r hr => hr⟩
          case isFalse hh =>
            refine ⟨n.add_port p, List.mem_cons_self _ _, rfl, fun r hr => ?_⟩
            exact List.mem_append_left _ hr
        · exact ⟨n, List.mem_cons_of_mem _ h2, rfl, fun r hr => hr⟩
      · rcases List.mem_cons.mp hn with rfl | h2
        · exact ⟨n, List.mem_cons_self _ _, rfl, fun r hr => hr⟩
        · obtain ⟨m, hm, hmi, hsub⟩ := ih h2
          exact ⟨m, List.mem_cons_of_mem _ hm, hmi, hsub⟩

theorem attachToLast_attach {nodes : List Node} {p : Port} {n : Node}
    (hnodup : (nodes.map Node.id).Nodup) (hn : n ∈ nodes)
    (hid : n.id = p.node_id) (hhas : n.has_port p = false) :
    n.add_port p ∈ attachToLast nodes p := by
  induction nodes with
  | nil => cases hn
  | cons n' rest ih =>
    rw [List.map_cons, List.nodup_cons] at hnodup
    rcases List.mem_cons.mp hn with rfl | hmem
    · have hrest : (rest.any fun m => m.id == p.node_id) = false := by
        rw [List.any_eq_false]
        intro m hm
        simp only [beq_iff_eq]
        intro hq
        apply hnodup.1
        rw [hid, ← hq]
        exact List.mem_map_of_mem Node.id hm
      simp [attachToLast, hrest, hid, hhas]
    · have hany : (rest.any fun m => m.id == p.node_id) = true := by
        rw [List.any_eq_true]
        exact ⟨n, hmem, by rw [beq_iff_eq]; exact hid⟩
      simp only [attachToLast, hany, if_pos]
      exact List.mem_cons_of_mem _ (ih hnodup.2 hmem)


theorem drainPorts_map_id (l : List Port) (nodes : List Node) (nf : List Port) :
    ((drainPorts l nodes nf).1).map Node.id = nodes.map Node.id := by
  induction l generalizing nodes nf with
  | nil => rfl
  | cons p rest ih =>
    simp only [drainPorts]
    split
    · rw [ih, attachToLast_map_id]
    · rw [ih]

theorem drainPorts_pending_eq (l : List Port) (nodes : List Node) (nf : List Port) :
    (drainPorts l nodes nf).2 =
      nf ++ l.filter (fun p => !(nodes.any fun n => n.id == p.node_id)) := by
  induction l generalizing nodes nf with
  | nil => simp [drainPorts]
  | cons p rest ih =>
    simp only [drainPorts]
    split
    case isTrue hc =>
      rw [ih]
      have hstable : (rest.filter fun q => !((attachToLast nodes p).any fun n => n.id == q.node_id))
          = rest.filter fun q => !(nodes.any fun n => n.id == q.node_id) :=
        List.filter_congr (fun q _ => by rw [any_id_congr _ (attachToLast_map_id nodes p)])
      rw [hstable, List.filter_cons]
      simp [hc]
    case isFalse hc =>
      rw [ih, List.filter_cons]
      simp only [Bool.not_eq_true] at hc
      simp [hc]

theorem drainPorts_mono {l : List Port} {nodes : List Node} {nf : List Port}
    {i : Nat} {r : Port} (h : ∃ n ∈ nodes, n.id = i ∧ r ∈ n.ports) :
    ∃ m ∈ (drainPorts l nodes nf).1, m.id = i ∧ r ∈ m.ports := by
  induction l generalizing nodes nf with
  | nil => exact h
  | cons p rest ih =>
    simp only [drainPorts]
    split
    · apply ih
      obtain ⟨n, hn, hni, hr⟩ := h
      obtain ⟨m, hm, hmi, hsub⟩ := attachToLast_mono (p := p) hn
      exact ⟨m, hm, hmi.trans hni, hsub r hr⟩
    · exact ih h

theorem drainPorts_sup {l : List Port} {nodes : List Node} {nf : List Port}
    {m : Node} {r : Port}
    (hm : m ∈ (drainPorts l nodes nf).1) (hr : r ∈ m.ports) :
    (∃ n ∈ nodes, n.id = m.id ∧ r ∈ n.ports) ∨ (r ∈ l ∧ r.node_id = m.id) := by
  induction l generalizing nodes nf with
  | nil => exact Or.inl ⟨m, hm, rfl, hr⟩
  | cons p rest ih =>
    simp only [drainPorts] at hm
    split at hm
    · rcases ih hm with ⟨n₁, hn₁, hid₁, hr₁⟩ | ⟨hrl, hrm⟩
      · rcases attachToLast_mem_or hn₁ with hin | ⟨n, hn, hni, hneq⟩
        · exact Or.inl ⟨n₁, hin, hid₁, hr₁⟩
        · subst hneq
          rcases List.mem_append.mp hr₁ with hro | hrp
          · exact Or.inl ⟨n, hn, hid₁, hro⟩
          · have hrp' : r = p := by simpa using hrp
            subst hrp'
            exact Or.inr ⟨List.mem_cons_self _ _, by rw [← hni]; exact hid₁⟩
      · exact Or.inr ⟨List.mem_cons_of_mem _ hrl, hrm⟩
    · rcases ih hm with h | ⟨hrl, hrm⟩
      · exact Or.inl h
      · exact Or.inr ⟨List.mem_cons_of_mem _ hrl, hrm⟩

theorem drainPorts_attach (q : Port) :
    ∀ (l : List Port) (nodes : List Node) (nf : List Port),
      (nodes.map Node.id).Nodup → ((l.map Port.id).Nodup) → q ∈ l →
      (nodes.any fun n => n.id == q.node_id) = true →
      (∀ n ∈ nodes, n.has_port_of_id q.id = false) →
      ∃ m ∈ (drainPorts l nodes nf).1, m.id = q.node_id ∧ q ∈ m.ports := by
  intro l
  induction l with
  | nil => intro nodes nf _ _ hq; cases hq
  | cons p rest ih =>
    intro nodes nf hnodup hl hq hfound hfresh
    rw [List.map_cons, List.nodup_cons] at hl
    rcases List.mem_cons.mp hq with rfl | hmem
    · simp only [drainPorts, hfound, if_pos]
      obtain ⟨n, hn, hni⟩ := (any_id_eq_true_iff nodes q.node_id).mp hfound
      have hatt := attachToLast_attach hnodup hn hni (hfresh n hn)
      apply drainPorts_mono
      refine ⟨n.add_port q, hatt, hni, ?_⟩
      exact List.mem_append_right _ (List.mem_singleton.mpr rfl)
    · have hqp : q.id ≠ p.id := by
        intro hcontra
        exact hl.1 (hcontra ▸ List.mem_map_of_mem Port.id hmem)
      simp only [drainPorts]
      split
      case isTrue hc =>
        apply ih (attachToLast nodes p) nf ?nodup hl.2 hmem ?found ?fresh
        case nodup => rw [attachToLast_map_id]; exact hnodup
        case found => rw [any_id_congr _ (attachToLast_map_id nodes p)]; exact hfound
        case fresh =>
          intro n' hn'
          rcases attachToLast_mem_or hn' with hin | ⟨n, hn, _, hneq⟩
          · exact hfresh _ hin
          · subst hneq
            have h₁ : n.has_port_of_id q.id = false := hfresh n hn
            simp only [Node.has_port_of_id, Node.add_port, List.any_append] at *
            simp [h₁, hqp.symm]
      case isFalse hc => exact ih nodes (nf ++ [p]) hnodup hl.2 hmem hfound hfresh

theorem drainPorts_no_new (q : Port) :
    ∀ (l : List Port) (nodes : List Node) (nf : List Port),
      (nodes.map Node.id).Nodup → ((l.map Port.id).Nodup) →
      (∃ n ∈ nodes, n.id = q.node_id ∧ n.has_port_of_id q.id = true) →
      ∀ m ∈ (drainPorts l nodes nf).1, q ∈ m.ports →
      ∃ n ∈ nodes, n.id = m.id ∧ q ∈ n.ports := by
  intro l
  induction l with
  | nil => intro nodes nf _ _ _ m hm hq; exact ⟨m, hm, rfl, hq⟩
  | cons p rest ih =>
    intro nodes nf hnodup hl hhas m hm hq
    rw [List.map_cons, List.nodup_cons] at hl
    by_cases hpq : p = q
    · subst hpq
      obtain ⟨n, hn, hni, hnh⟩ := hhas
      have hfound : (nodes.any fun n' => n'.id == p.node_id) = true :=
        (any_id_eq_true_iff nodes p.node_id).mpr ⟨n, hn, hni⟩
      simp only [drainPorts, hfound, if_pos] at hm
      rw [attachToLast_skip hnodup hn hni hnh] at hm
      have hnotin : p ∉ rest := fun hin => hl.1 (List.mem_map_of_mem Port.id hin)
      rcases drainPorts_sup hm hq with h | ⟨hin, _⟩
      · exact h
      · exact absurd hin hnotin
    · simp only [drainPorts] at hm
      split at hm
      · obtain ⟨n, hn, hni, hnh⟩ := hhas
        obtain ⟨m₀, hm₀, hm₀i, hsub⟩ := attachToLast_mono (p := p) hn
        obtain ⟨r, hr, hri⟩ := (has_port_of_id_iff n q.id).mp hnh
        have hhas' : ∃ n' ∈ attachToLast nodes p, n'.id = q.node_id ∧
            n'.has_port_of_id q.id = true :=
          ⟨m₀, hm₀, hm₀i.trans hni, (has_port_of_id_iff m₀ q.id).mpr ⟨r, hsub r hr, hri⟩⟩
        have hnodup' : ((attachToLast nodes p).map Node.id).Nodup := by
          rw [attachToLast_map_id]; exact hnodup
        obtain ⟨n', hn', hn'i, hqn'⟩ := ih (attachToLast nodes p) nf hnodup' hl.2 hhas' m hm hq
        rcases attachToLast_mem_or hn' with hin | ⟨n₂, hn₂, _, hneq⟩
        · exact ⟨n', hin, hn'i, hqn'⟩
        · subst hneq
          rcases List.mem_append.mp hqn' with hro | hrp
          · exact ⟨n₂, hn₂, hn'i, hro⟩
          · exact absurd (List.mem_singleton.mp hrp).symm hpq
      · exact ih nodes (nf ++ [p]) hnodup hl.2 hhas m hm hq

/-! ## The reconciliation invariant for order-independence (C4) -/

/-- The node payloads of a list of "object appeared" events. -/
def eventNodes (es : List PwGlobalEvent) : List Node :=
  es.filterMap fun e =>
    match e with
    | PwGlobalEvent.nodeAppeared n => Option.some n
    | _ => Option.none

/-- The port payloads of a list of "object appeared" events. -/
def eventPorts (es : List PwGlobalEvent) : List Port :=
  es.filterMap fun e =>
    match e with
    | PwGlobalEvent.portAppeared p => Option.some p
    | _ => Option.none

/-- Invariant relating a graph state to the node and port events already
processed: the graph's node ids are exactly the seen node ids (in arrival
order); a port is attached to a node exactly when it was seen and names that
node; a port is pending exactly when it was seen and its node was not; and
pending port ids are duplicate-free. -/
def ReconInv (s : PipeWireObjects) (ns : List Node) (ps : List Port) : Prop :=
  s.nodes.map Node.id = ns.map Node.id ∧
  (∀ n ∈ s.nodes, ∀ q : Port, q ∈ n.ports ↔ (q ∈ ps ∧ q.node_id = n.id)) ∧
  (∀ q : Port, q ∈ s.ports_to_be_added ↔ (q ∈ ps ∧ q.node_id ∉ ns.map Node.id)) ∧
  (s.ports_to_be_added.map Port.id).Nodup

theorem recon_fresh {s : PipeWireObjects} {ns : List Node} {ps : List Port}
    (hInv : ReconInv s ns ps) (hpsN : (ps.map Port.id).Nodup) :
    ∀ q ∈ s.ports_to_be_added, ∀ m ∈ s.nodes, m.has_port_of_id q.id = false := by
  obtain ⟨hI1, hI2, hI3, _⟩ := hInv
  intro q hq m hm
  by_contra hcon
  rw [Bool.not_eq_false] at hcon
  obtain ⟨r, hr, hri⟩ := (has_port_of_id_iff m q.id).mp hcon
  have hrps := (hI2 m hm r).mp hr
  have hqps := (hI3 q).mp hq
  have hrq : r = q := List.inj_on_of_nodup_map hpsN hrps.1 hqps.1 hri
  subst hrq
  have hmid : m.id ∈ ns.map Node.id := hI1 ▸ List.mem_map_of_mem Node.id hm
  exact hqps.2 (hrps.2.symm ▸ hmid)

theorem pending_sub_ps {s : PipeWireObjects} {ns : List Node} {ps : List Port}
    (hInv : ReconInv s ns ps) :
    ∀ q ∈ s.ports_to_be_added, q ∈ ps := fun q hq => ((hInv.2.2.1 q).mp hq).1

theorem recon_inv_step_node {s : PipeWireObjects} {ns : List Node} {ps : List Port}
    {n : Node} (hInv : ReconInv s ns ps)
    (hnsN : ((ns ++ [n]).map Node.id).Nodup) (hpsN : (ps.map Port.id).Nodup)
    (hports : n.ports = []) :
    ReconInv (PipeWireObjects.update_nodes { s with nodes := s.nodes ++ [n] })
      (ns ++ [n]) ps := by
  obtain ⟨hI1, hI2, hI3, hI5⟩ := hInv
  have hfreshn : n.id ∉ ns.map Node.id := by
    rw [List.map_append, List.nodup_append] at hnsN
    intro hc
    exact hnsN.2.2 hc (by simp)
  have hids : (s.nodes ++ [n]).map Node.id = (ns ++ [n]).map Node.id := by
    simp [hI1]
  -- every port of `ps` whose node is absent sits in pending; so if pending is
  -- empty every seen port's node is present
  by_cases hpe : s.ports_to_be_added = []
  · have hupd : PipeWireObjects.update_nodes { s with nodes := s.nodes ++ [n] }
        = { s with nodes := s.nodes ++ [n] } := by
      simp [PipeWireObjects.update_nodes, hpe]
    rw [hupd]
    have hall : ∀ q : Port, q ∈ ps → q.node_id ∈ ns.map Node.id := by
      intro q hq
      by_contra hc
      have : q ∈ s.ports_to_be_added := (hI3 q).mpr ⟨hq, hc⟩
      rw [hpe] at this
      cases this
    refine ⟨hids, ?_, ?_, ?_⟩
    · intro m hm q
      rcases List.mem_append.mp hm with hmo | hmn
      · exact hI2 m hmo q
      · have hmn' : m = n := by simpa using hmn
        subst hmn'
        rw [hports]
        simp only [List.not_mem_nil, false_iff, not_and]
        intro hq hqid
        exact absurd (hqid ▸ hall q hq) hfreshn
    · intro q
      simp only [hpe]
      simp only [List.not_mem_nil, false_iff, not_and]
      intro hq hc
      exact hc (by simp [hall q hq])
    · simp [hpe]
  · have hguard : ({ s with nodes := s.nodes ++ [n] } : PipeWireObjects).nodes.isEmpty
        || ({ s with nodes := s.nodes ++ [n] } : PipeWireObjects).ports_to_be_added.isEmpty
        = false := by
      simp [hpe]
    have hupd : PipeWireObjects.update_nodes { s with nodes := s.nodes ++ [n] }
        = { s with
            nodes := (drainPorts s.ports_to_be_added.reverse (s.nodes ++ [n]) []).1,
            ports_to_be_added :=
              (drainPorts s.ports_to_be_added.reverse (s.nodes ++ [n]) []).2 } := by
      rw [PipeWireObjects.update_nodes]
      rw [if_neg]
      simp [hpe]
    rw [hupd]
    set R := drainPorts s.ports_to_be_added.reverse (s.nodes ++ [n]) [] with hR
    have hRids : R.1.map Node.id = (ns ++ [n]).map Node.id := by
      rw [hR, drainPorts_map_id, hids]
    have hRidsN : (R.1.map Node.id).Nodup := by rw [hRids]; exact hnsN
    have hpendN : (s.ports_to_be_added.reverse.map Port.id).Nodup := by
      rw [List.map_reverse, List.nodup_reverse]
      exact hI5
    have hfresh : ∀ q ∈ s.ports_to_be_added.reverse, ∀ m ∈ s.nodes ++ [n],
        m.has_port_of_id q.id = false := by
      intro q hq m hm
      rw [List.mem_reverse] at hq
      rcases List.mem_append.mp hm with hmo | hmn
      · exact recon_fresh ⟨hI1, hI2, hI3, hI5⟩ hpsN q hq m hmo
      · have hmn' : m = n := by simpa using hmn
        subst hmn'
        simp [Node.has_port_of_id, hports]
    have hpend : R.2 = s.ports_to_be_added.reverse.filter
        (fun q => !((s.nodes ++ [n]).any fun m => m.id == q.node_id)) := by
      rw [hR, drainPorts_pending_eq]
      simp
    refine ⟨hRids, ?_, ?_, ?_⟩
    · -- attached-ports characterization
      intro m hm q
      constructor
      · intro hq
        rcases drainPorts_sup (hR ▸ hm) hq with ⟨n₀, hn₀, hn₀i, hq₀⟩ | ⟨hqp, hqm⟩
        · rcases List.mem_append.mp hn₀ with ho | hn'
          · obtain ⟨h1, h2⟩ := (hI2 n₀ ho q).mp hq₀
            exact ⟨h1, h2.trans hn₀i⟩
          · have : n₀ = n := by simpa using hn'
            subst this
            rw [hports] at hq₀
            cases hq₀
        · rw [List.mem_reverse] at hqp
          exact ⟨pending_sub_ps ⟨hI1, hI2, hI3, hI5⟩ q hqp, hqm⟩
      · rintro ⟨hqps, hqid⟩
        by_cases hqpend : q ∈ s.ports_to_be_added
        · have hfound : ((s.nodes ++ [n]).any fun m' => m'.id == q.node_id) = true := by
            rw [any_id_eq_true_iff]
            have : q.node_id ∈ (s.nodes ++ [n]).map Node.id := by
              rw [hids, ← hRids, hqid]
              exact List.mem_map_of_mem Node.id hm
            obtain ⟨m', hm', hm'i⟩ := List.mem_map.mp this
            exact ⟨m', hm', hm'i⟩
          obtain ⟨m', hm', hm'i, hqm'⟩ := drainPorts_attach q
            s.ports_to_be_added.reverse (s.nodes ++ [n]) []
            (hids ▸ hnsN) hpendN (List.mem_reverse.mpr hqpend) hfound
            (fun m₀ hm₀ => hfresh q (List.mem_reverse.mpr hqpend) m₀ hm₀)
          have hmm : m' = m :=
            List.inj_on_of_nodup_map hRidsN (hR ▸ hm') hm (by rw [hm'i, hqid])
          exact hmm ▸ hqm'
        · have hqin : q.node_id ∈ ns.map Node.id := by
            by_contra hc
            exact hqpend ((hI3 q).mpr ⟨hqps, hc⟩)
          have : q.node_id ∈ s.nodes.map Node.id := hI1 ▸ hqin
          obtain ⟨n₀, hn₀, hn₀i⟩ := List.mem_map.mp this
          have hqn₀ : q ∈ n₀.ports := (hI2 n₀ hn₀ q).mpr ⟨hqps, hn₀i.symm⟩
          obtain ⟨m', hm', hm'i, hqm'⟩ :=
            @drainPorts_mono s.ports_to_be_added.reverse (s.nodes ++ [n]) [] _ _
              ⟨n₀, List.mem_append_left _ hn₀, hn₀i, hqn₀⟩
          have hmm : m' = m :=
            List.inj_on_of_nodup_map hRidsN (hR ▸ hm') hm (by rw [hm'i]; exact hqid)
          exact hmm ▸ hqm'
    · -- pending characterization
      intro q
      rw [hpend, List.mem_filter]
      constructor
      · rintro ⟨hq, hq2⟩
        rw [List.mem_reverse] at hq
        obtain ⟨h1, _⟩ := (hI3 q).mp hq
        refine ⟨h1, ?_⟩
        rw [Bool.not_eq_eq_eq_not, Bool.not_true] at hq2
        intro hc
        rw [← hids] at hc
        obtain ⟨m', hm', hm'i⟩ := List.mem_map.mp hc
        rw [List.any_eq_false] at hq2
        exact hq2 m' hm' (by rw [beq_iff_eq]; exact hm'i)
      · rintro ⟨hqps, hqnot⟩
        have hnsmem : q.node_id ∉ ns.map Node.id := fun hc =>
          hqnot (by rw [List.map_append]; exact List.mem_append_left _ hc)
        refine ⟨List.mem_reverse.mpr ((hI3 q).mpr ⟨hqps, hnsmem⟩), ?_⟩
        rw [Bool.not_eq_eq_eq_not, Bool.not_true, List.any_eq_false]
        intro m' hm'
        rw [beq_iff_eq]
        intro hc
        exact hqnot (by rw [← hids, ← hc]; exact List.mem_map_of_mem Node.id hm')
    · rw [hpend]
      exact ((List.filter_sublist _).map Port.id).nodup hpendN

theorem recon_inv_step_port {s : PipeWireObjects} {ns : List Node} {ps : List Port}
    {p : Port} (hInv : ReconInv s ns ps)
    (hnsN : (ns.map Node.id).Nodup) (hpsN : ((ps ++ [p]).map Port.id).Nodup) :
    ReconInv
      (PipeWireObjects.update_nodes
        { s with ports_to_be_added := s.ports_to_be_added ++ [p] })
      ns (ps ++ [p]) := by
  obtain ⟨hI1, hI2, hI3, hI5⟩ := hInv
  have hpsN' : (ps.map Port.id).Nodup := by
    rw [List.map_append, List.nodup_append] at hpsN
    exact hpsN.1
  have hfreshp : p.id ∉ ps.map Port.id := by
    rw [List.map_append, List.nodup_append] at hpsN
    intro hc
    exact hpsN.2.2 hc (by simp)
  have hpendp : p.id ∉ s.ports_to_be_added.map Port.id := by
    intro hc
    obtain ⟨q, hq, hqi⟩ := List.mem_map.mp hc
    exact hfreshp (hqi ▸ List.mem_map_of_mem Port.id (pending_sub_ps ⟨hI1, hI2, hI3, hI5⟩ q hq))
  by_cases hne : s.nodes = []
  · have hnse : ns.map Node.id = [] := by rw [← hI1, hne]; rfl
    have hupd : PipeWireObjects.update_nodes
        { s with ports_to_be_added := s.ports_to_be_added ++ [p] }
        = { s with ports_to_be_added := s.ports_to_be_added ++ [p] } := by
      simp [PipeWireObjects.update_nodes, hne]
    rw [hupd]
    refine ⟨hI1, ?_, ?_, ?_⟩
    · intro m hm q
      simp only [hne] at hm
      cases hm
    · intro q
      rw [List.mem_append, hI3 q, hnse]
      simp [List.mem_append]
    · rw [List.map_append, List.nodup_append]
      exact ⟨hI5, by simp, by
        intro a ha hb
        simp only [List.map_cons, List.map_nil, List.mem_singleton] at hb
        subst hb
        exact hpendp ha⟩
  · have hupd : PipeWireObjects.update_nodes
        { s with ports_to_be_added := s.ports_to_be_added ++ [p] }
        = { s with
            nodes := (drainPorts (s.ports_to_be_added ++ [p]).reverse s.nodes []).1,
            ports_to_be_added :=
              (drainPorts (s.ports_to_be_added ++ [p]).reverse s.nodes []).2 } := by
      rw [PipeWireObjects.update_nodes]
      rw [if_neg]
      simp [hne]
    rw [hupd]
    set R := drainPorts (s.ports_to_be_added ++ [p]).reverse s.nodes [] with hR
    have hRids : R.1.map Node.id = ns.map Node.id := by
      rw [hR, drainPorts_map_id, hI1]
    have hRidsN : (R.1.map Node.id).Nodup := by rw [hRids]; exact hnsN
    have hsN : (s.nodes.map Node.id).Nodup := by rw [hI1]; exact hnsN
    have hpendN : (((s.ports_to_be_added ++ [p]).reverse).map Port.id).Nodup := by
      rw [List.map_reverse, List.nodup_reverse, List.map_append, List.nodup_append]
      exact ⟨hI5, by simp, by
        intro a ha hb
        simp only [List.map_cons, List.map_nil, List.mem_singleton] at hb
        subst hb
        exact hpendp ha⟩
    have hfresh : ∀ q ∈ (s.ports_to_be_added ++ [p]).reverse, ∀ m ∈ s.nodes,
        m.has_port_of_id q.id = false := by
      intro q hq m hm
      rw [List.mem_reverse] at hq
      rcases List.mem_append.mp hq with hqo | hqp
      · exact recon_fresh ⟨hI1, hI2, hI3, hI5⟩ hpsN' q hqo m hm
      · have hqp' : q = p := by simpa using hqp
        subst hqp'
        by_contra hcon
        rw [Bool.not_eq_false] at hcon
        obtain ⟨r, hr, hri⟩ := (has_port_of_id_iff m q.id).mp hcon
        have hrps := (hI2 m hm r).mp hr
        exact hfreshp (hri ▸ List.mem_map_of_mem Port.id hrps.1)
    have hpend : R.2 = ((s.ports_to_be_added ++ [p]).reverse).filter
        (fun q => !(s.nodes.any fun m => m.id == q.node_id)) := by
      rw [hR, drainPorts_pending_eq]
      simp
    refine ⟨hRids, ?_, ?_, ?_⟩
    · intro m hm q
      constructor
      · intro hq
        rcases drainPorts_sup (hR ▸ hm) hq with ⟨n₀, hn₀, hn₀i, hq₀⟩ | ⟨hqp, hqm⟩
        · obtain ⟨h1, h2⟩ := (hI2 n₀ hn₀ q).mp hq₀
          exact ⟨List.mem_append_left _ h1, h2.trans hn₀i⟩
        · rw [List.mem_reverse] at hqp
          rcases List.mem_append.mp hqp with hqo | hqp'
          · exact ⟨List.mem_append_left _ (pending_sub_ps ⟨hI1, hI2, hI3, hI5⟩ q hqo), hqm⟩
          · exact ⟨List.mem_append_right _ hqp', hqm⟩
      · rintro ⟨hqps, hqid⟩
        have hmid : m.id ∈ ns.map Node.id := by
          rw [← hRids]
          exact List.mem_map_of_mem Node.id hm
        rcases List.mem_append.mp hqps with hqo | hqp'
        · by_cases hqpend : q ∈ s.ports_to_be_added
          · obtain ⟨_, hc⟩ := (hI3 q).mp hqpend
            exact absurd (hqid ▸ hmid) hc
          · have hqin : q.node_id ∈ ns.map Node.id := by
              by_contra hc
              exact hqpend ((hI3 q).mpr ⟨hqo, hc⟩)
            have hqin' : q.node_id ∈ s.nodes.map Node.id := hI1 ▸ hqin
            obtain ⟨n₀, hn₀, hn₀i⟩ := List.mem_map.mp hqin'
            have hqn₀ : q ∈ n₀.ports := (hI2 n₀ hn₀ q).mpr ⟨hqo, hn₀i.symm⟩
            obtain ⟨m', hm', hm'i, hqm'⟩ :=
              @drainPorts_mono (s.ports_to_be_added ++ [p]).reverse s.nodes [] _ _
                ⟨n₀, hn₀, hn₀i, hqn₀⟩
            have hmm : m' = m :=
              List.inj_on_of_nodup_map hRidsN (hR ▸ hm') hm (by rw [hm'i]; exact hqid)
            exact hmm ▸ hqm'
        · have hqp'' : q = p := by simpa using hqp'
          subst hqp''
          have hfound : (s.nodes.any fun m' => m'.id == q.node_id) = true := by
            rw [any_id_eq_true_iff]
            have : q.node_id ∈ s.nodes.map Node.id := by rw [hI1, hqid]; exact hmid
            obtain ⟨m', hm', hm'i⟩ := List.mem_map.mp this
            exact ⟨m', hm', hm'i⟩
          obtain ⟨m', hm', hm'i, hqm'⟩ := drainPorts_attach q
            (s.ports_to_be_added ++ [q]).reverse s.nodes []
            hsN hpendN (List.mem_reverse.mpr (List.mem_append_right _ (by simp)))
            hfound (fun m₀ hm₀ =>
              hfresh q (List.mem_reverse.mpr (List.mem_append_right _ (by simp))) m₀ hm₀)
          have hmm : m' = m :=
            List.inj_on_of_nodup_map hRidsN (hR ▸ hm') hm (by rw [hm'i]; exact hqid)
          exact hmm ▸ hqm'
    · intro q
      rw [hpend, List.mem_filter]
      constructor
      · rintro ⟨hq, hq2⟩
        rw [List.mem_reverse] at hq
        rw [Bool.not_eq_eq_eq_not, Bool.not_true, List.any_eq_false] at hq2
        have hnot : q.node_id ∉ ns.map Node.id := by
          intro hc
          rw [← hI1] at hc
          obtain ⟨m', hm', hm'i⟩ := List.mem_map.mp hc
          exact hq2 m' hm' (by rw [beq_iff_eq]; exact hm'i)
        rcases List.mem_append.mp hq with hqo | hqp'
        · exact ⟨List.mem_append_left _ (pending_sub_ps ⟨hI1, hI2, hI3, hI5⟩ q hqo), hnot⟩
        · exact ⟨List.mem_append_right _ hqp', hnot⟩
      · rintro ⟨hqps, hqnot⟩
        have hnofind : (s.nodes.any fun m' => m'.id == q.node_id) = false := by
          rw [List.any_eq_false]
          intro m' hm'
          rw [beq_iff_eq]
          intro hc
          exact hqnot (by rw [← hc, ← hI1]; exact List.mem_map_of_mem Node.id hm')
        refine ⟨?_, by rw [hnofind]; rfl⟩
        rw [List.mem_reverse, List.mem_append]
        rcases List.mem_append.mp hqps with hqo | hqp'
        · exact Or.inl ((hI3 q).mpr ⟨hqo, hqnot⟩)
        · exact Or.inr hqp'
    · rw [hpend]
      exact ((List.filter_sublist _).map Port.id).nodup hpendN

theorem eventNodes_cons_node (n : Node) (es : List PwGlobalEvent) :
    eventNodes (PwGlobalEvent.nodeAppeared n :: es) = n :: eventNodes es := rfl

theorem eventNodes_cons_port (p : Port) (es : List PwGlobalEvent) :
    eventNodes (PwGlobalEvent.portAppeared p :: es) = eventNodes es := rfl

theorem eventPorts_cons_node (n : Node) (es : List PwGlobalEvent) :
    eventPorts (PwGlobalEvent.nodeAppeared n :: es) = eventPorts es := rfl

theorem eventPorts_cons_port (p : Port) (es : List PwGlobalEvent) :
    eventPorts (PwGlobalEvent.portAppeared p :: es) = p :: eventPorts es := rfl

theorem recon_inv_empty : ReconInv PipeWireObjects.empty [] [] := by
  refine ⟨rfl, ?_, ?_, ?_⟩
  · intro n hn
    cases hn
  · intro q
    simp [PipeWireObjects.empty]
  · simp [PipeWireObjects.empty]

theorem recon_inv_foldl :
    ∀ (es : List PwGlobalEvent) (s : PipeWireObjects) (ns : List Node) (ps : List Port),
      ReconInv s ns ps →
      (∀ e ∈ es, (∃ n, e = PwGlobalEvent.nodeAppeared n ∧ n.ports = []) ∨
        ∃ p, e = PwGlobalEvent.portAppeared p) →
      (((ns ++ eventNodes es).map Node.id).Nodup) →
      (((ps ++ eventPorts es).map Port.id).Nodup) →
      ReconInv (es.foldl (fun o e => (pwEventHandler o e).1) s)
        (ns ++ eventNodes es) (ps ++ eventPorts es) := by
  intro es
  induction es with
  | nil =>
    intro s ns ps hInv _ _ _
    simpa [eventNodes, eventPorts] using hInv
  | cons e rest ih =>
    intro s ns ps hInv hkinds hnsN hpsN
    rcases hkinds e (List.mem_cons_self _ _) with ⟨n, rfl, hports⟩ | ⟨p, rfl⟩
    · rw [eventNodes_cons_node] at hnsN
      rw [eventPorts_cons_node] at hpsN
      have hsub : (ns ++ [n]).Sublist (ns ++ n :: eventNodes rest) :=
        List.Sublist.append_left (by
          refine List.cons_sublist_cons.mpr ?_
          exact List.nil_sublist _) ns
      have hnsN' : (((ns ++ [n]).map Node.id).Nodup) :=
        ((hsub.map Node.id).nodup) hnsN
      have hpsN' : ((ps.map Port.id).Nodup) :=
        (((List.sublist_append_left ps (eventPorts rest)).map Port.id).nodup) hpsN
      have hstep := recon_inv_step_node hInv hnsN' hpsN' hports
      have hres := ih _ (ns ++ [n]) ps hstep
        (fun e' he' => hkinds e' (List.mem_cons_of_mem _ he'))
        (by rw [List.append_assoc]; exact hnsN)
        hpsN
      rw [List.append_assoc] at hres
      simpa [eventNodes_cons_node, eventPorts_cons_node, pwEventHandler] using hres
    · rw [eventNodes_cons_port] at hnsN
      rw [eventPorts_cons_port] at hpsN
      have hsub : (ps ++ [p]).Sublist (ps ++ p :: eventPorts rest) :=
        List.Sublist.append_left (by
          refine List.cons_sublist_cons.mpr ?_
          exact List.nil_sublist _) ps
      have hpsN' : (((ps ++ [p]).map Port.id).Nodup) :=
        ((hsub.map Port.id).nodup) hpsN
      have hnsN' : ((ns.map Node.id).Nodup) :=
        (((List.sublist_append_left ns (eventNodes rest)).map Node.id).nodup) hnsN
      have hstep := recon_inv_step_port hInv hnsN' hpsN'
      have hres := ih _ ns (ps ++ [p]) hstep
        (fun e' he' => hkinds e' (List.mem_cons_of_mem _ he'))
        hnsN
        (by rw [List.append_assoc]; exact hpsN)
      rw [List.append_assoc] at hres
      simpa [eventNodes_cons_port, eventPorts_cons_port, pwEventHandler] using hres

theorem processEvents_recon (es : List PwGlobalEvent)
    (hkinds : ∀ e ∈ es, (∃ n, e = PwGlobalEvent.nodeAppeared n ∧ n.ports = []) ∨
      ∃ p, e = PwGlobalEvent.portAppeared p)
    (hN : ((eventNodes es).map Node.id).Nodup)
    (hP : ((eventPorts es).map Port.id).Nodup) :
    ReconInv (processEvents es) (eventNodes es) (eventPorts es) := by
  have h := recon_inv_foldl es PipeWireObjects.empty [] [] recon_inv_empty hkinds
    (by simpa) (by simpa)
  simpa [processEvents] using h

theorem recon_attached_iff {s : PipeWireObjects} {ns : List Node} {ps : List Port}
    (hInv : ReconInv s ns ps) (p : Port) (i : Nat) :
    (∃ n ∈ s.nodes, n.id = i ∧ p ∈ n.ports) ↔
      (i ∈ ns.map Node.id ∧ p ∈ ps ∧ p.node_id = i) := by
  obtain ⟨hI1, hI2, _, _⟩ := hInv
  constructor
  · rintro ⟨n, hn, hni, hp⟩
    obtain ⟨h1, h2⟩ := (hI2 n hn p).mp hp
    exact ⟨hI1 ▸ (hni ▸ List.mem_map_of_mem Node.id hn), h1, h2.trans hni⟩
  · rintro ⟨hi, hpe, hpn⟩
    have : i ∈ s.nodes.map Node.id := hI1.symm ▸ hi
    obtain ⟨n, hn, hni⟩ := List.mem_map.mp this
    exact ⟨n, hn, hni, (hI2 n hn p).mpr ⟨hpe, hpn.trans hni.symm⟩⟩

theorem recon_node_ids_iff {s : PipeWireObjects} {ns : List Node} {ps : List Port}
    (hInv : ReconInv s ns ps) (i : Nat) :
    (∃ n ∈ s.nodes, n.id = i) ↔ i ∈ ns.map Node.id := by
  rw [← hInv.1]
  constructor
  · rintro ⟨n, hn, rfl⟩
    exact List.mem_map_of_mem Node.id hn
  · intro h
    obtain ⟨n, hn, hni⟩ := List.mem_map.mp h
    exact ⟨n, hn, hni⟩

/-- C4: For every finite set of "device appeared" and "channel appeared"
notifications (fresh devices with no attached channels, all device ids
pairwise distinct, all channel ids pairwise distinct), feeding every
permutation of that set — with a reconciliation pass after each notification,
as the event handler does — yields the same final Object Graph: the same
Device ids present, every Channel attached to the same Device, and the same
Channels left pending, regardless of arrival order. -/
theorem C4_reconciliation_order_independent
    (es₁ es₂ : List PwGlobalEvent) (hperm : es₁.Perm es₂)
    (hkinds : ∀ e ∈ es₁, (∃ n, e = PwGlobalEvent.nodeAppeared n ∧ n.ports = []) ∨
      ∃ p, e = PwGlobalEvent.portAppeared p)
    (hN : ((eventNodes es₁).map Node.id).Nodup)
    (hP : ((eventPorts es₁).map Port.id).Nodup) :
    (∀ i : Nat, (∃ n ∈ (processEvents es₁).nodes, n.id = i) ↔
        (∃ n ∈ (processEvents es₂).nodes, n.id = i)) ∧
    (∀ p : Port, ∀ i : Nat,
        (∃ n ∈ (processEvents es₁).nodes, n.id = i ∧ p ∈ n.ports) ↔
        (∃ n ∈ (processEvents es₂).nodes, n.id = i ∧ p ∈ n.ports)) ∧
    (∀ p : Port, p ∈ (processEvents es₁).ports_to_be_added ↔
        p ∈ (processEvents es₂).ports_to_be_added) := by
  have hpermN : (eventNodes es₁).Perm (eventNodes es₂) := List.Perm.filterMap _ hperm
  have hpermP : (eventPorts es₁).Perm (eventPorts es₂) := List.Perm.filterMap _ hperm
  have hkinds₂ : ∀ e ∈ es₂, (∃ n, e = PwGlobalEvent.nodeAppeared n ∧ n.ports = []) ∨
      ∃ p, e = PwGlobalEvent.portAppeared p :=
    fun e he => hkinds e (hperm.mem_iff.mpr he)
  have hN₂ : ((eventNodes es₂).map Node.id).Nodup :=
    ((hpermN.map Node.id).nodup_iff).mp hN
  have hP₂ : ((eventPorts es₂).map Port.id).Nodup :=
    ((hpermP.map Port.id).nodup_iff).mp hP
  have hInv₁ := processEvents_recon es₁ hkinds hN hP
  have hInv₂ := processEvents_recon es₂ hkinds₂ hN₂ hP₂
  refine ⟨?_, ?_, ?_⟩
  · intro i
    rw [recon_node_ids_iff hInv₁ i, recon_node_ids_iff hInv₂ i]
    exact (hpermN.map Node.id).mem_iff
  · intro p i
    rw [recon_attached_iff hInv₁ p i, recon_attached_iff hInv₂ p i]
    constructor
    · rintro ⟨h1, h2, h3⟩
      exact ⟨(hpermN.map Node.id).mem_iff.mp h1, hpermP.mem_iff.mp h2, h3⟩
    · rintro ⟨h1, h2, h3⟩
      exact ⟨(hpermN.map Node.id).mem_iff.mpr h1, hpermP.mem_iff.mpr h2, h3⟩
  · intro p
    rw [hInv₁.2.2.1 p, hInv₂.2.2.1 p]
    constructor
    · rintro ⟨h1, h2⟩
      exact ⟨hpermP.mem_iff.mp h1, fun hc => h2 ((hpermN.map Node.id).mem_iff.mpr hc)⟩
    · rintro ⟨h1, h2⟩
      exact ⟨hpermP.mem_iff.mpr h1, fun hc => h2 ((hpermN.map Node.id).mem_iff.mp hc)⟩

/-- Sample-value builder for witnesses: a port with the fields the linking
and reconciliation algorithms inspect; remaining string fields are empty. -/
def mkPort (id : Nat) (name : String) (direction : PortDirection)
    (node_id : Nat) (audio_channel : AudioChannel) : Port :=
  { id := id, name := name, direction := direction, alias' := "", group := "",
    object_serial := 0, object_path := "", node_id := node_id,
    audio_channel := audio_channel }

/-- Sample-value builder for witnesses: a node with the fields the linking
and reconciliation algorithms inspect; optional metadata is absent. -/
def mkNode (id : Nat) (name : String) (ports : List Port) : Node :=
  { id := id, name := name, description := Option.none, nick := Option.none,
    permissions := 0, version := 0, object_serial := "0",
    factory_id := Option.none, object_path := Option.none,
    client_id := Option.none, device_id := Option.none,
    priority_session := Option.none, priority_driver := Option.none,
    media_class := Option.none, media_role := Option.none,
    client_api := Option.none, application_name := Option.none, ports := ports }

/-- Witness for C4: a channel arriving before its device and after its device
give the same final graph. -/
theorem C4_reconciliation_order_independent_witness :
    ([PwGlobalEvent.portAppeared (mkPort 10 "p" PortDirection.In 1 AudioChannel.FL),
      PwGlobalEvent.nodeAppeared (mkNode 1 "n" [])].Perm
     [PwGlobalEvent.nodeAppeared (mkNode 1 "n" []),
      PwGlobalEvent.portAppeared (mkPort 10 "p" PortDirection.In 1 AudioChannel.FL)]) ∧
    ((∀ i : Nat,
        (∃ n ∈ (processEvents
          [PwGlobalEvent.portAppeared (mkPort 10 "p" PortDirection.In 1 AudioChannel.FL),
           PwGlobalEvent.nodeAppeared (mkNode 1 "n" [])]).nodes, n.id = i) ↔
        (∃ n ∈ (processEvents
          [PwGlobalEvent.nodeAppeared (mkNode 1 "n" []),
           PwGlobalEvent.portAppeared (mkPort 10 "p" PortDirection.In 1 AudioChannel.FL)]).nodes,
          n.id = i)) ∧
      (∀ p : Port, ∀ i : Nat,
        (∃ n ∈ (processEvents
          [PwGlobalEvent.portAppeared (mkPort 10 "p" PortDirection.In 1 AudioChannel.FL),
           PwGlobalEvent.nodeAppeared (mkNode 1 "n" [])]).nodes, n.id = i ∧ p ∈ n.ports) ↔
        (∃ n ∈ (processEvents
          [PwGlobalEvent.nodeAppeared (mkNode 1 "n" []),
           PwGlobalEvent.portAppeared (mkPort 10 "p" PortDirection.In 1 AudioChannel.FL)]).nodes,
          n.id = i ∧ p ∈ n.ports)) ∧
      (∀ p : Port,
        p ∈ (processEvents
          [PwGlobalEvent.portAppeared (mkPort 10 "p" PortDirection.In 1 AudioChannel.FL),
           PwGlobalEvent.nodeAppeared (mkNode 1 "n" [])]).ports_to_be_added ↔
        p ∈ (processEvents
          [PwGlobalEvent.nodeAppeared (mkNode 1 "n" []),
           PwGlobalEvent.portAppeared (mkPort 10 "p" PortDirection.In 1 AudioChannel.FL)]).ports_to_be_added)) :=
  ⟨List.Perm.swap _ _ _,
   C4_reconciliation_order_independent _ _ (List.Perm.swap _ _ _)
     (by
       intro e he
       rcases List.mem_cons.mp he with rfl | he'
       · exact Or.inr ⟨_, rfl⟩
       · rcases List.mem_cons.mp he' with rfl | he''
         · exact Or.inl ⟨_, rfl, rfl⟩
         · cases he'')
     (by decide) (by decide)⟩

/-! ## Object removal (`remove_object`) -/

theorem find_congr_pred {α : Type} (l : List α) (p q : α → Bool)
    (h : ∀ a ∈ l, p a = q a) : l.find? p = l.find? q := by
  induction l with
  | nil => rfl
  | cons x xs ih =>
    simp only [List.find?]
    rw [h x (List.mem_cons_self x xs)]
    split
    · rfl
    · exact ih (fun a ha => h a (List.mem_cons_of_mem _ ha))

/-- Full behaviour of `remove_object`: the first Connection whose own id
matches is erased (with an `UnlinkUpdate` notification); the Devices are
consulted in the same invocation regardless, through `find_node_by_id` (which
also matches a Device owning a Channel with the id), and the found Device is
erased. -/
theorem remove_object_spec (o : PipeWireObjects) (id : Nat) :
    (PipeWireManager.remove_object o id).1.links = o.links.eraseP (fun l => l.id == id) ∧
    (PipeWireManager.remove_object o id).1.nodes =
      (match o.find_node_by_id id with
       | Option.some n => o.nodes.eraseP (fun m => m.id == n.id)
       | Option.none => o.nodes) ∧
    (PipeWireManager.remove_object o id).2 =
      (match o.links.find? (fun l => l.id == id) with
       | Option.some l => [ConnectorEvent.unlinkUpdate l.output_node l.input_node]
       | Option.none => []) := by
  cases hfind : o.links.find? (fun l => l.id == id) with
  | none =>
    have hnone : o.find_linked_nodes_by_link_id id = Option.none := by
      rw [PipeWireObjects.find_linked_nodes_by_link_id, hfind]
      rfl
    have herase : o.links.eraseP (fun l => l.id == id) = o.links :=
      List.eraseP_of_forall_not (by
        intro l hl
        have h := List.find?_eq_none.mp hfind l hl
        simpa using h)
    simp only [PipeWireManager.remove_object, hnone, Option.isSome_none,
      Bool.false_eq_true, if_false, herase]
    cases hfn : o.find_node_by_id id with
    | none => exact ⟨rfl, rfl, rfl⟩
    | some n => exact ⟨rfl, rfl, rfl⟩
  | some l =>
    have hsome : o.find_linked_nodes_by_link_id id =
        Option.some (l.output_node, l.input_node) := by
      rw [PipeWireObjects.find_linked_nodes_by_link_id, hfind]
      rfl
    have hfn' : PipeWireObjects.find_node_by_id
        { o with links := o.links.eraseP (fun l' => l'.id == id) } id
        = o.find_node_by_id id := rfl
    simp only [PipeWireManager.remove_object, PipeWireObjects.remove_link, hsome,
      Option.isSome_some, if_true, hfn']
    cases hfn : o.find_node_by_id id with
    | none => exact ⟨rfl, rfl, rfl⟩
    | some n => exact ⟨rfl, rfl, rfl⟩

/-- Example graph for C1: one Device (id 1) and one Connection (own id 5)
whose output Device id is 1. -/
def c1Objs : PipeWireObjects :=
  { nodes := [mkNode 1 "n" []], links := [⟨5, 11, 21, 1, 2⟩],
    ports_to_be_added := [] }

/-- C1 counterexample: the graph holds Device 1 and a Connection (own id 5)
whose output Device is 1; the "object removed" notification for id 1 removes
the Device but leaves the Connection referencing it in the graph, so removal
does not transitively invalidate Connections. -/
theorem C1_counterexample :
    (⟨5, 11, 21, 1, 2⟩ : Link) ∈ (PipeWireManager.remove_object c1Objs 1).1.links ∧
    (∀ n ∈ (PipeWireManager.remove_object c1Objs 1).1.nodes, n.id ≠ 1) ∧
    (⟨5, 11, 21, 1, 2⟩ : Link).output_node = 1 := by
  decide

/-- C1 amended: processing an "object removed" notification for a Device id
(that is not also one of a Device's Channel ids) removes exactly the first
Device with that id, and removes only a Connection whose OWN id equals the
notified id — Connections whose output or input Device id references the
removed Device are NOT removed and stay in the graph. -/
theorem C1_remove_device_keeps_referencing_connections
    (o : PipeWireObjects) (id : Nat)
    (h : ∀ n ∈ o.nodes, n.has_port_of_id id = false) :
    (PipeWireManager.remove_object o id).1.nodes =
      o.nodes.eraseP (fun n => n.id == id) ∧
    (PipeWireManager.remove_object o id).1.links =
      o.links.eraseP (fun l => l.id == id) ∧
    ∀ l ∈ o.links, l.id ≠ id →
      l ∈ (PipeWireManager.remove_object o id).1.links := by
  obtain ⟨hlinks, hnodes, _⟩ := remove_object_spec o id
  have hfind : o.find_node_by_id id = o.nodes.find? (fun n => n.id == id) := by
    rw [PipeWireObjects.find_node_by_id]
    exact find_congr_pred _ _ _ (fun n hn => by rw [h n hn]; simp)
  refine ⟨?_, hlinks, ?_⟩
  · rw [hnodes, hfind]
    cases hf : o.nodes.find? (fun n => n.id == id) with
    | none =>
      have herase : o.nodes.eraseP (fun n => n.id == id) = o.nodes :=
        List.eraseP_of_forall_not (by
          intro n hn
          have hn' := List.find?_eq_none.mp hf n hn
          simpa using hn')
      rw [herase]
    | some n =>
      have hni : n.id = id := by
        have := List.find?_some hf
        simpa using this
      simp only [hni]
  · intro l hl hlid
    rw [hlinks, List.mem_eraseP_of_neg (by simpa using hlid)]
    exact hl

/-- Witness for C1 (amended): removing Device 1 erases it, keeps the
Connection with id 5 that references it. -/
theorem C1_remove_device_keeps_referencing_connections_witness :
    (∀ n ∈ c1Objs.nodes, n.has_port_of_id 1 = false) ∧
    ((PipeWireManager.remove_object c1Objs 1).1.nodes =
        c1Objs.nodes.eraseP (fun n => n.id == 1) ∧
      (PipeWireManager.remove_object c1Objs 1).1.links =
        c1Objs.links.eraseP (fun l => l.id == 1) ∧
      ∀ l ∈ c1Objs.links, l.id ≠ 1 →
        l ∈ (PipeWireManager.remove_object c1Objs 1).1.links) :=
  ⟨by decide, C1_remove_device_keeps_referencing_connections _ 1 (by decide)⟩

/-- Example graph for C2: one Device (id 1) owning one Channel (id 5); no
Connections. -/
def c2Objs : PipeWireObjects :=
  { nodes := [mkNode 1 "n" [mkPort 5 "p" PortDirection.In 1 AudioChannel.FL]],
    links := [], ports_to_be_added := [] }

/-- C2 counterexample: Device 1 owns Channel 5; the removal notification for
id 5 — which equals no Device id and no Connection id — still removes
Device 1, so a Device is removed on a match of one of its Channel ids, not
only of its own id. -/
theorem C2_counterexample :
    (PipeWireManager.remove_object c2Objs 5).1.nodes = [] ∧
    (∀ n ∈ c2Objs.nodes, n.id ≠ 5) := by
  decide

/-- C2 amended: handling an "object removed" notification erases the first
Connection whose own id matches (emitting an `UnlinkUpdate` notification);
then — regardless of whether a Connection matched — the Devices collection is
consulted, and the Device found by `find_node_by_id` (matching the Device's
own id OR the id of a Channel it owns) is removed. -/
theorem C2_removal_resolution_order (o : PipeWireObjects) (id : Nat) :
    (PipeWireManager.remove_object o id).1.links = o.links.eraseP (fun l => l.id == id) ∧
    (PipeWireManager.remove_object o id).1.nodes =
      (match o.find_node_by_id id with
       | Option.some n => o.nodes.eraseP (fun m => m.id == n.id)
       | Option.none => o.nodes) ∧
    (PipeWireManager.remove_object o id).2 =
      (match o.links.find? (fun l => l.id == id) with
       | Option.some l => [ConnectorEvent.unlinkUpdate l.output_node l.input_node]
       | Option.none => []) :=
  remove_object_spec o id

/-! ## C3: fate of a drained pending Channel -/

/-- Example graph for C3: Device 1 already owns a Channel with id 10; the
pending area holds a different Channel value with the same id 10. -/
def c3Objs : PipeWireObjects :=
  { nodes := [mkNode 1 "n" [mkPort 10 "a" PortDirection.In 1 AudioChannel.FL]],
    links := [],
    ports_to_be_added := [mkPort 10 "b" PortDirection.In 1 AudioChannel.FR] }

/-- C3 counterexample: the pending Channel "b" (id 10) is drained while its
Device exists but already owns a Channel with id 10; after the pass it is
neither attached nor put back into the pending area — it is silently
dropped, contradicting the claim that it is put back. -/
theorem C3_counterexample :
    (mkPort 10 "b" PortDirection.In 1 AudioChannel.FR) ∈ c3Objs.ports_to_be_added ∧
    (PipeWireObjects.update_nodes c3Objs).ports_to_be_added = [] ∧
    (∀ n ∈ (PipeWireObjects.update_nodes c3Objs).nodes,
      (mkPort 10 "b" PortDirection.In 1 AudioChannel.FR) ∉ n.ports) := by
  decide

/-- C3 amended: in a reconciliation pass (with duplicate-free Device ids and
pending-Channel ids), a drained pending Channel is attached to its Device
exactly when that Device exists and no Device owns a Channel with that id;
when its Device is missing it is put back into the pending area; but when the
Device exists and already owns a Channel with the same id, the drained
Channel is DISCARDED — it is neither attached nor put back. -/
theorem C3_pending_drain_amended (o : PipeWireObjects) (p : Port)
    (hnodesN : (o.nodes.map Node.id).Nodup)
    (hpendN : (o.ports_to_be_added.map Port.id).Nodup)
    (hp : p ∈ o.ports_to_be_added)
    (hnotmem : ∀ m ∈ o.nodes, p ∉ m.ports) :
    ((o.nodes.any fun n => n.id == p.node_id) = false →
        p ∈ (PipeWireObjects.update_nodes o).ports_to_be_added) ∧
    (∀ m ∈ o.nodes, m.id = p.node_id →
      (∀ m' ∈ o.nodes, m'.has_port_of_id p.id = false) →
        (∃ m' ∈ (PipeWireObjects.update_nodes o).nodes, m'.id = p.node_id ∧ p ∈ m'.ports) ∧
        p ∉ (PipeWireObjects.update_nodes o).ports_to_be_added) ∧
    (∀ m ∈ o.nodes, m.id = p.node_id → m.has_port_of_id p.id = true →
        p ∉ (PipeWireObjects.update_nodes o).ports_to_be_added ∧
        ∀ m' ∈ (PipeWireObjects.update_nodes o).nodes, p ∉ m'.ports) := by
  have hpne : o.ports_to_be_added ≠ [] := fun hc => by rw [hc] at hp; cases hp
  have hrevN : ((o.ports_to_be_added.reverse.map Port.id).Nodup) := by
    rw [List.map_reverse, List.nodup_reverse]
    exact hpendN
  have hprev : p ∈ o.ports_to_be_added.reverse := List.mem_reverse.mpr hp
  refine ⟨?_, ?_, ?_⟩
  · intro hnf
    by_cases hne : o.nodes = []
    · have : PipeWireObjects.update_nodes o = o := by
        simp [PipeWireObjects.update_nodes, hne]
      rw [this]
      exact hp
    · have hupd : PipeWireObjects.update_nodes o =
          { o with
            nodes := (drainPorts o.ports_to_be_added.reverse o.nodes []).1,
            ports_to_be_added :=
              (drainPorts o.ports_to_be_added.reverse o.nodes []).2 } := by
        rw [PipeWireObjects.update_nodes, if_neg]
        simp [hne, hpne]
      rw [hupd]
      show p ∈ (drainPorts o.ports_to_be_added.reverse o.nodes []).2
      rw [drainPorts_pending_eq]
      refine List.mem_append_right _ (List.mem_filter.mpr ⟨hprev, ?_⟩)
      rw [hnf]
      rfl
  · intro m hm hmid hfresh
    have hne : o.nodes ≠ [] := fun hc => by rw [hc] at hm; cases hm
    have hupd : PipeWireObjects.update_nodes o =
        { o with
          nodes := (drainPorts o.ports_to_be_added.reverse o.nodes []).1,
          ports_to_be_added :=
            (drainPorts o.ports_to_be_added.reverse o.nodes []).2 } := by
      rw [PipeWireObjects.update_nodes, if_neg]
      simp [hne, hpne]
    rw [hupd]
    have hfound : (o.nodes.any fun n => n.id == p.node_id) = true :=
      (any_id_eq_true_iff _ _).mpr ⟨m, hm, hmid⟩
    constructor
    · exact drainPorts_attach p o.ports_to_be_added.reverse o.nodes []
        hnodesN hrevN hprev hfound hfresh
    · show p ∉ (drainPorts o.ports_to_be_added.reverse o.nodes []).2
      rw [drainPorts_pending_eq]
      intro hc
      rcases List.mem_append.mp hc with hc' | hc'
      · cases hc'
      · have := (List.mem_filter.mp hc').2
        rw [hfound] at this
        cases this
  · intro m hm hmid hhas
    have hne : o.nodes ≠ [] := fun hc => by rw [hc] at hm; cases hm
    have hupd : PipeWireObjects.update_nodes o =
        { o with
          nodes := (drainPorts o.ports_to_be_added.reverse o.nodes []).1,
          ports_to_be_added :=
            (drainPorts o.ports_to_be_added.reverse o.nodes []).2 } := by
      rw [PipeWireObjects.update_nodes, if_neg]
      simp [hne, hpne]
    rw [hupd]
    have hfound : (o.nodes.any fun n => n.id == p.node_id) = true :=
      (any_id_eq_true_iff _ _).mpr ⟨m, hm, hmid⟩
    constructor
    · show p ∉ (drainPorts o.ports_to_be_added.reverse o.nodes []).2
      rw [drainPorts_pending_eq]
      intro hc
      rcases List.mem_append.mp hc with hc' | hc'
      · cases hc'
      · have := (List.mem_filter.mp hc').2
        rw [hfound] at this
        cases this
    · intro m' hm' hpm'
      obtain ⟨n₀, hn₀, _, hpn₀⟩ := drainPorts_no_new p o.ports_to_be_added.reverse
        o.nodes [] hnodesN hrevN ⟨m, hm, hmid, hhas⟩ m' hm' hpm'
      exact hnotmem n₀ hn₀ hpn₀

/-- Example graph for the C3 witness: Device 1 with no Channels; the pending
area holds Channel 10 naming Device 1 (the attach case). -/
def c3wObjs : PipeWireObjects :=
  { nodes := [mkNode 1 "n" []], links := [],
    ports_to_be_added := [mkPort 10 "p" PortDirection.In 1 AudioChannel.FL] }

/-- Witness for C3 (amended), instantiated at the attach case. -/
theorem C3_pending_drain_amended_witness :
    ((c3wObjs.nodes.map Node.id).Nodup ∧
      (c3wObjs.ports_to_be_added.map Port.id).Nodup ∧
      (mkPort 10 "p" PortDirection.In 1 AudioChannel.FL) ∈ c3wObjs.ports_to_be_added ∧
      (∀ m ∈ c3wObjs.nodes, (mkPort 10 "p" PortDirection.In 1 AudioChannel.FL) ∉ m.ports)) ∧
    (((c3wObjs.nodes.any fun n =>
          n.id == (mkPort 10 "p" PortDirection.In 1 AudioChannel.FL).node_id) = false →
        (mkPort 10 "p" PortDirection.In 1 AudioChannel.FL) ∈
          (PipeWireObjects.update_nodes c3wObjs).ports_to_be_added) ∧
      (∀ m ∈ c3wObjs.nodes,
        m.id = (mkPort 10 "p" PortDirection.In 1 AudioChannel.FL).node_id →
        (∀ m' ∈ c3wObjs.nodes,
          m'.has_port_of_id (mkPort 10 "p" PortDirection.In 1 AudioChannel.FL).id = false) →
          (∃ m' ∈ (PipeWireObjects.update_nodes c3wObjs).nodes,
            m'.id = (mkPort 10 "p" PortDirection.In 1 AudioChannel.FL).node_id ∧
            (mkPort 10 "p" PortDirection.In 1 AudioChannel.FL) ∈ m'.ports) ∧
          (mkPort 10 "p" PortDirection.In 1 AudioChannel.FL) ∉
            (PipeWireObjects.update_nodes c3wObjs).ports_to_be_added) ∧
      (∀ m ∈ c3wObjs.nodes,
        m.id = (mkPort 10 "p" PortDirection.In 1 AudioChannel.FL).node_id →
        m.has_port_of_id (mkPort 10 "p" PortDirection.In 1 AudioChannel.FL).id = true →
          (mkPort 10 "p" PortDirection.In 1 AudioChannel.FL) ∉
            (PipeWireObjects.update_nodes c3wObjs).ports_to_be_added ∧
          ∀ m' ∈ (PipeWireObjects.update_nodes c3wObjs).nodes,
            (mkPort 10 "p" PortDirection.In 1 AudioChannel.FL) ∉ m'.ports)) :=
  ⟨⟨by decide, by decide, by decide, by decide⟩,
   C3_pending_drain_amended c3wObjs _ (by decide) (by decide) (by decide) (by decide)⟩

/-! ## C5: link(a, a), C8: idempotent unlink, C9: decode failures -/

/-- C5: for every graph state and Device id, the link command with source id
equal to target id fails with the SameEndpoint validation error before any
lookup, `handle` reports it as a `LinkFailed` (ConnectionLinkFailed) outcome,
no create-link request is issued, and the Object Graph is returned
completely unchanged. -/
theorem C5_link_same_endpoint (o : PipeWireObjects) (a : Nat) :
    PipeWireEvent.link_command o a a =
      (o, [], Option.some (LinkCmdError.sameEndpoint a)) ∧
    PipeWireEvent.handle_link o a a =
      (o, [], Option.some (ConnectorEvent.linkFailed a a)) := by
  constructor
  · rw [PipeWireEvent.link_command, if_pos]
    exact beq_self_eq_true a
  · rw [PipeWireEvent.handle_link]
    rw [PipeWireEvent.link_command, if_pos]
    · rfl
    · exact beq_self_eq_true a

/-- C8: when no Connection matches the `(source, target)` pair, the unlink
command still succeeds, emits the successful `UnlinkUpdate` notification for
the pair, and leaves the Object Graph unchanged (idempotent unlink). -/
theorem C8_unlink_idempotent (o : PipeWireObjects) (a b : Nat)
    (h : ∀ l ∈ o.links, ¬(l.output_node = a ∧ l.input_node = b)) :
    PipeWireEvent.unlink_command o a b =
      Except.ok (o, [ConnectorEvent.unlinkUpdate a b]) := by
  have hfilter : o.links.filter (fun l => l.output_node == a && l.input_node == b) = [] := by
    rw [List.filter_eq_nil_iff]
    intro l hl
    have := h l hl
    simp only [Bool.and_eq_true, beq_iff_eq]
    intro hc
    exact this hc
  rw [PipeWireEvent.unlink_command]
  simp [hfilter]

/-- Example graph for the C8 witness: its single Connection pairs
Devices (3, 4). -/
def c8Objs : PipeWireObjects :=
  { nodes := [mkNode 1 "n" []], links := [⟨5, 11, 21, 3, 4⟩],
    ports_to_be_added := [] }

/-- Witness for C8: unlinking the unconnected pair (1, 2) succeeds without
touching the graph. -/
theorem C8_unlink_idempotent_witness :
    (∀ l ∈ c8Objs.links, ¬(l.output_node = 1 ∧ l.input_node = 2)) ∧
    PipeWireEvent.unlink_command c8Objs 1 2 =
      Except.ok (c8Objs, [ConnectorEvent.unlinkUpdate 1 2]) :=
  ⟨by decide, C8_unlink_idempotent _ 1 2 (by decide)⟩

/-- C9 counterexample: an "object appeared" notification for a Port whose
property dictionary lacks the required key `port.name` makes the event
handler abort with the panic message of `val` — the decode failure is NOT
contained to that object (no graph state results, and no further processing
happens in the event thread), contradicting the claimed skip-and-continue
behaviour. -/
theorem C9_counterexample :
    pwRawEventHandler PipeWireObjects.empty
      (RawGlobal.port 7 [("port.direction", "in")]) =
      Except.error "Expected key port.name does not exist." ∧
    ∀ r, pwRawEventHandler PipeWireObjects.empty
      (RawGlobal.port 7 [("port.direction", "in")]) ≠ Except.ok r := by
  constructor
  · rfl
  · intro r hc
    cases hc

/-- C9 amended: an "object appeared" notification for a Port whose property
dictionary lacks the required key `port.name` is a PANIC (`val` panics on a
missing required key): the handler invocation produces a fatal error instead
of a new graph state — the object is never added, but processing does not
continue past it (there is no per-object skip in the code). -/
theorem C9_missing_required_key_panics (o : PipeWireObjects) (id : Nat) (props : Dict)
    (h : props.get' "port.name" = Option.none) :
    pwRawEventHandler o (RawGlobal.port id props) =
      Except.error "Expected key port.name does not exist." := by
  rw [pwRawEventHandler]
  rw [Port.new]
  simp only [val, h]
  rfl

/-- Witness for C9 (amended). -/
theorem C9_missing_required_key_panics_witness :
    (Dict.get' [("port.direction", "in")] "port.name" = Option.none) ∧
    pwRawEventHandler PipeWireObjects.empty
      (RawGlobal.port 7 [("port.direction", "in")]) =
      Except.error "Expected key port.name does not exist." :=
  ⟨by rfl, C9_missing_required_key_panics PipeWireObjects.empty 7 _ (by rfl)⟩

/-! ## Lemmas about the linking algorithm (`link_device`) -/

theorem dir_not_in_eq_out {d : PortDirection} (h : d ≠ PortDirection.In) :
    d = PortDirection.Out := by
  cases d
  · exact absurd rfl h
  · rfl

theorem link_port_ok {p q : Port} (hp : p.direction = PortDirection.Out)
    (hq : q.direction = PortDirection.In) :
    p.link_port q = Except.ok ⟨p.node_id, p.id, q.node_id, q.id⟩ := by
  rw [Port.link_port, if_neg (by simp [hp]), if_neg (by simp [hq])]

theorem link_port_not_input {p q : Port} (hp : p.direction = PortDirection.Out)
    (hq : q.direction ≠ PortDirection.In) :
    p.link_port q = Except.error (PortError.linkError p.name q.name
      (p.name ++ " is not an input port")) := by
  rw [Port.link_port, if_neg (by simp [hp]), if_pos (by simp [bne_iff_ne]; exact hq)]

theorem fallbackPass_eq {fp : Port} (hfp : fp.direction = PortDirection.Out) :
    ∀ (l : List Port) (reqs : List ConnReq),
      fallbackPass fp reqs l =
        (reqs ++ (l.filter (fun q => q.direction == PortDirection.In)).map
          (fun q => ⟨fp.node_id, fp.id, q.node_id, q.id⟩), Option.none) := by
  intro l
  induction l with
  | nil => intro reqs; simp [fallbackPass]
  | cons q rest ih =>
    intro reqs
    rw [fallbackPass]
    by_cases hq : q.direction = PortDirection.In
    · rw [if_neg (by simp [hq])]
      simp only [link_port_ok hfp hq]
      rw [ih, List.filter_cons, if_pos (by simp [hq])]
      simp
    · rw [if_pos (by simp [bne_iff_ne]; exact hq), ih]
      rw [List.filter_cons, if_neg (by simp [hq])]

/-- The create-link requests the exact-match pass issues for a list of source
ports on which no `link_port` call fails: skip input-direction source ports;
for an output port whose role is found on some target port, the request for
that pair. -/
def exactReqs (tgtPorts : List Port) (l : List Port) : List ConnReq :=
  l.filterMap fun q =>
    if q.direction == PortDirection.In then Option.none
    else
      (tgtPorts.find? (fun r => r.audio_channel == q.audio_channel)).bind
        (fun r =>
          match q.link_port r with
          | Except.ok c => Option.some c
          | Except.error _ => Option.none)

/-- When every source port before `s_p` either is input-direction, has no
role match on the target, or role-matches an input-direction target port —
and `s_p` is an output port whose role-search finds the non-input `t_p` —
the exact-match pass issues exactly the requests for the prefix and stops
with `s_p`'s direction error. -/
theorem exactPass_error_at (tgtPorts : List Port) (s_p t_p : Port) (post : List Port)
    (hsp : s_p.direction = PortDirection.Out)
    (hfind : tgtPorts.find? (fun r => r.audio_channel == s_p.audio_channel) =
      Option.some t_p)
    (htp : t_p.direction ≠ PortDirection.In) :
    ∀ pre : List Port,
      (∀ q ∈ pre, q.direction = PortDirection.In ∨
        tgtPorts.find? (fun r => r.audio_channel == q.audio_channel) = Option.none ∨
        ∃ r, tgtPorts.find? (fun r' => r'.audio_channel == q.audio_channel) =
          Option.some r ∧ r.direction = PortDirection.In) →
      (exactPass tgtPorts (pre ++ s_p :: post)).1 = exactReqs tgtPorts pre ∧
      (exactPass tgtPorts (pre ++ s_p :: post)).2.1 =
        Option.some (PortError.linkError s_p.name t_p.name
          (s_p.name ++ " is not an input port")) := by
  intro pre
  induction pre with
  | nil =>
    intro _
    rw [List.nil_append, exactPass]
    rw [if_neg (by simp [hsp]), hfind]
    simp only [link_port_not_input hsp htp]
    refine ⟨?_, ?_⟩ <;> simp [exactReqs]
  | cons q pre' ih =>
    intro hpre
    have ihres := ih (fun q' hq' => hpre q' (List.mem_cons_of_mem _ hq'))
    rw [List.cons_append, exactPass]
    by_cases hqin : q.direction = PortDirection.In
    · rw [if_pos (by simp [hqin])]
      rw [exactReqs, List.filterMap_cons]
      rw [if_pos (by simp [hqin])]
      exact ihres
    · rw [if_neg (by simp [hqin])]
      have hqout : q.direction = PortDirection.Out := dir_not_in_eq_out hqin
      rcases hpre q (List.mem_cons_self _ _) with hq1 | hq2 | ⟨r, hr, hrin⟩
      · exact absurd hq1 hqin
      · rw [hq2]
        rw [exactReqs, List.filterMap_cons, if_neg (by simp [hqin]), hq2]
        exact ihres
      · rw [hr]
        simp only [link_port_ok hqout hrin]
        rw [exactReqs, List.filterMap_cons, if_neg (by simp [hqin]), hr]
        simp only [Option.some_bind, link_port_ok hqout hrin]
        refine ⟨?_, ihres.2⟩
        show (⟨q.node_id, q.id, r.node_id, r.id⟩ : ConnReq) ::
          (exactPass tgtPorts (pre' ++ s_p :: post)).1 = _
        rw [ihres.1]
        rfl

/-- C10: with equal total Channel counts, when the role search for an output
Channel `s_p` of the source (the first source Channel whose search result is
problematic; every earlier source Channel is input-direction, role-matches
nothing, or role-matches an input-direction target Channel) finds the target
Channel `t_p` that is NOT input-direction, `link_device` returns the
direction error of that connection request immediately — only the requests
for the earlier Channels were issued, and the fallback pass is never
reached, even though the prechecks guarantee a valid fallback pairing
(source has an output Channel, target has an input Channel). -/
theorem C10_exact_search_ignores_direction (src tgt : Node)
    (pre : List Port) (s_p t_p : Port) (post : List Port)
    (hports : src.ports = pre ++ s_p :: post)
    (hlen : src.ports.length = tgt.ports.length)
    (hin : (tgt.ports.any fun q => q.direction == PortDirection.In) = true)
    (hsp : s_p.direction = PortDirection.Out)
    (hfind : tgt.ports.find? (fun r => r.audio_channel == s_p.audio_channel) =
      Option.some t_p)
    (htp : t_p.direction ≠ PortDirection.In)
    (hpre : ∀ q ∈ pre, q.direction = PortDirection.In ∨
      tgt.ports.find? (fun r => r.audio_channel == q.audio_channel) = Option.none ∨
      ∃ r, tgt.ports.find? (fun r' => r'.audio_channel == q.audio_channel) =
        Option.some r ∧ r.direction = PortDirection.In) :
    src.link_device tgt =
      (exactReqs tgt.ports pre,
       Option.some (NodeError.portError (PortError.linkError s_p.name t_p.name
         (s_p.name ++ " is not an input port")))) := by
  have hout : (src.ports.any fun p => p.direction == PortDirection.Out) = true := by
    rw [List.any_eq_true]
    refine ⟨s_p, ?_, by simp [hsp]⟩
    rw [hports]
    exact List.mem_append_right _ (List.mem_cons_self _ _)
  have hlenb : (src.ports.length == tgt.ports.length) = true := by simp [hlen]
  obtain ⟨h1, h2⟩ := exactPass_error_at tgt.ports s_p t_p post hsp hfind htp pre hpre
  simp only [Node.link_device, hout, hin, hlenb]
  rw [hports]
  simp only [eq_self_iff_true, if_true, Bool.true_eq_false, if_false]
  rw [h2]
  simp only [h1]

/-- Source and target Devices for the C10 witness: equal counts; the
source's FL output role-matches the target's FL channel, which is an OUTPUT
(the search ignores direction), while a valid fallback pairing (source FL
out → target FC in) exists. -/
def c10Src : Node :=
  mkNode 1 "s" [mkPort 11 "sFL" PortDirection.Out 1 AudioChannel.FL,
    mkPort 12 "sFC" PortDirection.Out 1 AudioChannel.FC]

/-- Target Device for the C10 witness. -/
def c10Tgt : Node :=
  mkNode 2 "t" [mkPort 21 "tFL" PortDirection.Out 2 AudioChannel.FL,
    mkPort 22 "tFC" PortDirection.In 2 AudioChannel.FC]

/-- Witness for C10: `link_device` fails with the direction error for the
(sFL, tFL) pair, issues no request, and never reaches the fallback. -/
theorem C10_exact_search_ignores_direction_witness :
    (c10Src.ports = [] ++ (mkPort 11 "sFL" PortDirection.Out 1 AudioChannel.FL) ::
        [mkPort 12 "sFC" PortDirection.Out 1 AudioChannel.FC] ∧
      c10Src.ports.length = c10Tgt.ports.length ∧
      (c10Tgt.ports.any fun q => q.direction == PortDirection.In) = true ∧
      (mkPort 11 "sFL" PortDirection.Out 1 AudioChannel.FL).direction = PortDirection.Out ∧
      c10Tgt.ports.find? (fun r => r.audio_channel ==
        (mkPort 11 "sFL" PortDirection.Out 1 AudioChannel.FL).audio_channel) =
        Option.some (mkPort 21 "tFL" PortDirection.Out 2 AudioChannel.FL) ∧
      (mkPort 21 "tFL" PortDirection.Out 2 AudioChannel.FL).direction ≠ PortDirection.In) ∧
    c10Src.link_device c10Tgt =
      (exactReqs c10Tgt.ports [],
       Option.some (NodeError.portError (PortError.linkError "sFL" "tFL"
         ("sFL" ++ " is not an input port")))) :=
  ⟨⟨by decide, by decide, by decide, by decide, by decide, by decide⟩,
   C10_exact_search_ignores_direction c10Src c10Tgt []
     (mkPort 11 "sFL" PortDirection.Out 1 AudioChannel.FL)
     (mkPort 21 "tFL" PortDirection.Out 2 AudioChannel.FL)
     [mkPort 12 "sFC" PortDirection.Out 1 AudioChannel.FC]
     (by decide) (by decide) (by decide) (by decide) (by decide) (by decide)
     (by intro q hq; cases hq)⟩

/-- Source Device for the C6 counterexample. -/
def c6Src : Node :=
  mkNode 1 "s" [mkPort 11 "sFL" PortDirection.Out 1 AudioChannel.FL,
    mkPort 12 "sFR" PortDirection.Out 1 AudioChannel.FR]

/-- Target Device for the C6 counterexample: FL is an input but FR is an
output, so the second exact-match pair fails after the first connected. -/
def c6Tgt : Node :=
  mkNode 2 "t" [mkPort 21 "tFL" PortDirection.In 2 AudioChannel.FL,
    mkPort 22 "tFR" PortDirection.Out 2 AudioChannel.FR]

/-- C6 counterexample: with equal Channel counts the exact-match pass
connects the FL pair (at least one pair was connected — the request list is
non-empty) and then fails on the FR pair's direction error, so `link_device`
does NOT return success, contradicting the claim that connecting at least
one pair implies success. -/
theorem C6_counterexample :
    c6Src.ports.length = c6Tgt.ports.length ∧
    (c6Src.link_device c6Tgt).1 ≠ [] ∧
    (c6Src.link_device c6Tgt).2.isSome = true := by
  decide

/-- C6 amended: the exact-match pass runs only on equal total Channel
counts; when the pass raises no error and connected at least one pair,
`link_device` returns success with exactly the pass's requests and the
fallback is never attempted.  (A `link_port` error inside the pass instead
aborts the call with that error, even if earlier pairs were connected.) -/
theorem C6_exact_match_success (src tgt : Node)
    (hout : (src.ports.any fun p => p.direction == PortDirection.Out) = true)
    (hin : (tgt.ports.any fun p => p.direction == PortDirection.In) = true)
    (hlen : src.ports.length = tgt.ports.length)
    (hnoerr : (exactPass tgt.ports src.ports).2.1 = Option.none)
    (hfound : (exactPass tgt.ports src.ports).2.2 = true) :
    src.link_device tgt = ((exactPass tgt.ports src.ports).1, Option.none) := by
  have hlenb : (src.ports.length == tgt.ports.length) = true := by simp [hlen]
  simp only [Node.link_device, hout, hin, hlenb]
  simp only [eq_self_iff_true, if_true, Bool.true_eq_false, if_false]
  rw [hnoerr, hfound]
  simp

/-- Source Device for the C6 witness. -/
def c6wSrc : Node :=
  mkNode 1 "s" [mkPort 11 "sFL" PortDirection.Out 1 AudioChannel.FL,
    mkPort 12 "sFR" PortDirection.Out 1 AudioChannel.FR]

/-- Target Device for the C6 witness. -/
def c6wTgt : Node :=
  mkNode 2 "t" [mkPort 21 "tFL" PortDirection.In 2 AudioChannel.FL,
    mkPort 22 "tFR" PortDirection.In 2 AudioChannel.FR]

/-- Witness for C6 (amended): FL→FL and FR→FR are connected exactly, with no
fallback requests. -/
theorem C6_exact_match_success_witness :
    ((c6wSrc.ports.any fun p => p.direction == PortDirection.Out) = true ∧
      (c6wTgt.ports.any fun p => p.direction == PortDirection.In) = true ∧
      c6wSrc.ports.length = c6wTgt.ports.length ∧
      (exactPass c6wTgt.ports c6wSrc.ports).2.1 = Option.none ∧
      (exactPass c6wTgt.ports c6wSrc.ports).2.2 = true) ∧
    c6wSrc.link_device c6wTgt = ((exactPass c6wTgt.ports c6wSrc.ports).1, Option.none) :=
  ⟨⟨by decide, by decide, by decide, by decide, by decide⟩,
   C6_exact_match_success c6wSrc c6wTgt (by decide) (by decide) (by decide)
     (by decide) (by decide)⟩

/-- Source Device for the C7 counterexample. -/
def c7Src : Node :=
  mkNode 1 "s" [mkPort 11 "sFL" PortDirection.Out 1 AudioChannel.FL,
    mkPort 12 "sFC" PortDirection.Out 1 AudioChannel.FC]

/-- Target Device for the C7 counterexample: the FL role match is an output
port, so the first exact-match pair errors before anything connects. -/
def c7Tgt : Node :=
  mkNode 2 "t" [mkPort 21 "tFL" PortDirection.Out 2 AudioChannel.FL,
    mkPort 22 "tFC" PortDirection.In 2 AudioChannel.FC]

/-- C7 counterexample: the exact-match pass connects nothing (the request
list is empty) yet `link_device` returns the pass's direction error without
running the fallback — no request from the source's first output to the
target's input Channels is issued, although both prechecks hold. -/
theorem C7_counterexample :
    (c7Src.link_device c7Tgt).1 = [] ∧
    (c7Src.link_device c7Tgt).2.isSome = true ∧
    (c7Src.ports.any fun p => p.direction == PortDirection.Out) = true ∧
    (c7Tgt.ports.any fun p => p.direction == PortDirection.In) = true := by
  decide

/-- C7 amended: whenever the exact-match pass connected nothing AND raised
no error (in particular whenever the channel counts differ), the fallback
pass takes the first output-direction Channel of the source and requests one
connection from it to every input-direction Channel of the target. -/
theorem C7_fallback_when_exact_clean (src tgt : Node)
    (hout : (src.ports.any fun p => p.direction == PortDirection.Out) = true)
    (hin : (tgt.ports.any fun p => p.direction == PortDirection.In) = true)
    (hex : src.ports.length = tgt.ports.length →
      exactPass tgt.ports src.ports = ([], Option.none, false)) :
    ∃ fp, src.ports.find? (fun p => p.direction == PortDirection.Out) = Option.some fp ∧
      src.link_device tgt =
        ((tgt.ports.filter (fun q => q.direction == PortDirection.In)).map
          (fun q => ⟨fp.node_id, fp.id, q.node_id, q.id⟩), Option.none) := by
  obtain ⟨fp, hfp⟩ : ∃ fp, src.ports.find?
      (fun p => p.direction == PortDirection.Out) = Option.some fp := by
    cases hcase : src.ports.find? (fun p => p.direction == PortDirection.Out) with
    | some fp => exact ⟨fp, rfl⟩
    | none =>
      rw [List.find?_eq_none] at hcase
      rw [List.any_eq_true] at hout
      obtain ⟨p, hp, hpd⟩ := hout
      exact absurd hpd (by simpa using hcase p hp)
  have hfpOut : fp.direction = PortDirection.Out := by
    have := List.find?_some hfp
    simpa using this
  refine ⟨fp, hfp, ?_⟩
  by_cases hlen : src.ports.length = tgt.ports.length
  · have hlenb : (src.ports.length == tgt.ports.length) = true := by simp [hlen]
    simp only [Node.link_device, hout, hin, hlenb, hex hlen]
    simp only [eq_self_iff_true, if_true, Bool.true_eq_false, if_false]
    rw [hfp]
    simp only [fallbackPass_eq hfpOut]
    simp
  · have hlenb : (src.ports.length == tgt.ports.length) = false := by simp [hlen]
    simp only [Node.link_device, hout, hin, hlenb, Bool.false_eq_true,
      Bool.true_eq_false, if_false]
    rw [hfp]
    simp only [fallbackPass_eq hfpOut]
    simp

/-- Source Device for the C7 witness: a single output. -/
def c7wSrc : Node :=
  mkNode 1 "s" [mkPort 11 "sFL" PortDirection.Out 1 AudioChannel.FL]

/-- Target Device for the C7 witness: three inputs (count mismatch → the
fallback connects the single output to all three). -/
def c7wTgt : Node :=
  mkNode 2 "t" [mkPort 21 "tFL" PortDirection.In 2 AudioChannel.FL,
    mkPort 22 "tFR" PortDirection.In 2 AudioChannel.FR,
    mkPort 23 "tFC" PortDirection.In 2 AudioChannel.FC]

/-- Witness for C7 (amended): the single output is connected to all three
inputs of the target. -/
theorem C7_fallback_when_exact_clean_witness :
    ((c7wSrc.ports.any fun p => p.direction == PortDirection.Out) = true ∧
      (c7wTgt.ports.any fun p => p.direction == PortDirection.In) = true ∧
      (c7wSrc.ports.length = c7wTgt.ports.length →
        exactPass c7wTgt.ports c7wSrc.ports = ([], Option.none, false))) ∧
    (∃ fp, c7wSrc.ports.find? (fun p => p.direction == PortDirection.Out) =
        Option.some fp ∧
      c7wSrc.link_device c7wTgt =
        ((c7wTgt.ports.filter (fun q => q.direction == PortDirection.In)).map
          (fun q => ⟨fp.node_id, fp.id, q.node_id, q.id⟩), Option.none)) :=
  ⟨⟨by decide, by decide, by decide⟩,
   C7_fallback_when_exact_clean c7wSrc c7wTgt (by decide) (by decide) (by decide)⟩
